import Mathlib

/-!
# Verification of the sugoroku board-game engine

A shallow embedding of the deterministic game-state engine of the
sugoroku (Momotetsu-style) board game: the property economy
(PropertyManager.ts), the card-effect resolver (CardManager.ts) and the
roaming-debuff state machine (BombeeManager.ts), together with proofs of
the specification's testable properties.

Modelling conventions:
* TypeScript numbers holding money are modelled as Int (money may go
  negative through uncapped effects); catalog prices and incomes are Nat.
* JavaScript float expressions of the form Math.floor(x * 0.5),
  Math.floor(x * 0.7), Math.floor(x * 0.3) over integer x are modelled as
  exact integer divisions x / 2, x * 7 / 10, x * 3 / 10 (Int.fdiv for
  signed values), which is the rounding the source intends.
* Every call to Math.random is replaced by an explicit oracle argument
  (a Bool coin, a Nat pick index, or an Int standing for the already
  floored random amount), so each operation is a deterministic function
  of the state and the oracle.
* Presentation-only data (player name, colours, card name/description,
  result message strings) is omitted; result records keep the fields the
  engine branches on (success, reason, newState).
-/

namespace Sugoroku

/-! ## Data model (src/types) -/

inductive BombeeType
  | none
  | mini
  | normal
  | king
deriving DecidableEq, Repr

inductive CardType
  | move_to_destination
  | move_steps
  | move_to_city
  | buy_property
  | steal_property
  | sell_property
  | get_money
  | pay_money
  | bombee_away
  | bombee_transfer
  | monopoly_break
  | card_steal
  | plus_dice
  | double_income
deriving DecidableEq, Repr

structure CardEffect where
  value : Option Int
  targetType : Option String
deriving DecidableEq, Repr

structure Card where
  id : String
  type : CardType
  effect : CardEffect
deriving DecidableEq, Repr

structure Position where
  cityId : String
  routeId : Option String
  squareIndex : Nat
  previousCityId : Option String
deriving DecidableEq, Repr

structure Player where
  id : String
  money : Int
  totalAssets : Int
  position : Position
  hand : List String
  bombeeType : BombeeType
  bombeeElapsedTurns : Nat
  incomeMultiplier : Option Int
  diceMultiplier : Option Int
  bombeeImmuneYears : Option Nat
deriving DecidableEq, Repr

structure Property where
  id : String
  cityId : String
  price : Nat
  income : Nat
  upgradePrices : List Nat
  upgradeIncomes : List Nat
  upgradeLevel : Nat
  ownerId : Option String
deriving DecidableEq, Repr

/-- The fields of GameState the embedded operations read or write.
Calendar/phase bookkeeping (currentYear, currentMonth, phase, ...) is
never touched by the operations under verification and is omitted. -/
structure GameState where
  players : List Player
  properties : List Property
  destinationCityId : String
deriving DecidableEq, Repr

/-- GAME_CONFIG.MAX_CARD_COUNT -/
def MAX_CARD_COUNT : Nat := 8

/-- BOMBEE.MINI_TO_NORMAL_TURNS -/
def MINI_TO_NORMAL_TURNS : Nat := 5

/-- BOMBEE.NORMAL_TO_KING_TURNS -/
def NORMAL_TO_KING_TURNS : Nat := 10

/-! ## PropertyManager -/

inductive PurchaseReason
  | not_enough_money
  | already_owned
deriving DecidableEq, Repr

structure PurchaseResult where
  success : Bool
  reason : Option PurchaseReason
  newState : Option GameState
deriving DecidableEq, Repr

structure IncomeResult where
  playerId : String
  propertyIncome : Nat
  monopolyBonus : Nat
  totalIncome : Nat
deriving DecidableEq, Repr

def getPropertiesByCity (properties : List Property) (cityId : String) : List Property :=
  properties.filter (fun p => p.cityId = cityId)

def getOwnedProperties (properties : List Property) (playerId : String) : List Property :=
  properties.filter (fun p => p.ownerId = some playerId)

/-- PropertyManager.hasMonopoly -/
def hasMonopoly (properties : List Property) (cityId playerId : String) : Bool :=
  let cityProps := properties.filter (fun p => p.cityId = cityId)
  cityProps.length > 0 && cityProps.all (fun p => p.ownerId = some playerId)

/-- PropertyManager.getCurrentPrice: upgrades never change the price. -/
def getCurrentPrice (property : Property) : Nat :=
  property.price

/-- PropertyManager.getCurrentIncome:
upgradeIncomes[level-1] for level > 0, else the base income
(with the source's ?? income fallback for an out-of-range level). -/
def getCurrentIncome (property : Property) : Nat :=
  if property.upgradeLevel = 0 then property.income
  else ((property.upgradeIncomes.get? (property.upgradeLevel - 1)).getD property.income)

/-- PropertyManager.getLandFee: Math.floor(income * 0.5). -/
def getLandFee (property : Property) : Nat :=
  getCurrentIncome property / 2

/-- Sum of prices of the properties owned by playerId
(the body of PropertyManager.recalcTotalAssets, per player). -/
def propertyValue (properties : List Property) (playerId : String) : Nat :=
  ((properties.filter (fun p => p.ownerId = some playerId)).map (fun p => p.price)).sum

/-- PropertyManager.recalcTotalAssets -/
def recalcTotalAssets (state : GameState) : GameState :=
  { state with players := state.players.map (fun player =>
      { player with totalAssets := player.money + (propertyValue state.properties player.id : Int) }) }

/-- PropertyManager.buyProperty -/
def buyProperty (state : GameState) (playerId propertyId : String) : PurchaseResult :=
  match state.players.find? (fun p => p.id = playerId),
        state.properties.find? (fun p => p.id = propertyId) with
  | some player, some property =>
    if property.ownerId ≠ none then
      { success := false, reason := some PurchaseReason.already_owned, newState := none }
    else
      let currentPrice := getCurrentPrice property
      if player.money < (currentPrice : Int) then
        { success := false, reason := some PurchaseReason.not_enough_money, newState := none }
      else
        let newPlayers := state.players.map (fun p =>
          if p.id = playerId then { p with money := p.money - (currentPrice : Int) } else p)
        let newProperties := state.properties.map (fun p =>
          if p.id = propertyId then { p with ownerId := some playerId } else p)
        { success := true, reason := none,
          newState := some (recalcTotalAssets
            { state with players := newPlayers, properties := newProperties }) }
  | _, _ =>
    -- the source returns reason not_enough_money when player or property is unknown
    { success := false, reason := some PurchaseReason.not_enough_money, newState := none }

/-- PropertyManager.upgradeProperty -/
def upgradeProperty (state : GameState) (playerId propertyId : String) : PurchaseResult :=
  match state.players.find? (fun p => p.id = playerId),
        state.properties.find? (fun p => p.id = propertyId) with
  | some player, some property =>
    if property.ownerId ≠ some playerId then
      { success := false, reason := none, newState := none }
    else if property.upgradeLevel ≥ property.upgradePrices.length then
      { success := false, reason := none, newState := none }
    else
      let upgradeCost := (property.upgradePrices.get? property.upgradeLevel).getD 0
      if player.money < (upgradeCost : Int) then
        { success := false, reason := some PurchaseReason.not_enough_money, newState := none }
      else
        let newPlayers := state.players.map (fun p =>
          if p.id = playerId then { p with money := p.money - (upgradeCost : Int) } else p)
        let newProperties := state.properties.map (fun p =>
          if p.id = propertyId then { p with upgradeLevel := p.upgradeLevel + 1 } else p)
        { success := true, reason := none,
          newState := some (recalcTotalAssets
            { state with players := newPlayers, properties := newProperties }) }
  | _, _ => { success := false, reason := none, newState := none }

/-- PropertyManager.payLandFee -/
def payLandFee (state : GameState) (payerId propertyId : String) : GameState :=
  match state.players.find? (fun p => p.id = payerId),
        state.properties.find? (fun p => p.id = propertyId) with
  | some payer, some property =>
    match property.ownerId with
    | none => state
    | some ownerId =>
      if ownerId = payerId then state
      else
        let fee : Int := getLandFee property
        let actualFee := min fee payer.money
        let newPlayers := state.players.map (fun p =>
          if p.id = payerId then { p with money := p.money - actualFee }
          else if p.id = ownerId then { p with money := p.money + actualFee }
          else p)
        recalcTotalAssets { state with players := newPlayers }
  | _, _ => state

/-- First-occurrence key deduplication: the iteration order of a
JavaScript Map / Set built by insertion. -/
def dedupKeysAux (seen : List String) : List String → List String
  | [] => []
  | c :: rest =>
    if c ∈ seen then dedupKeysAux seen rest
    else c :: dedupKeysAux (c :: seen) rest

def dedupKeys (l : List String) : List String :=
  dedupKeysAux [] l

/-- The income subtotal of the player's own properties in one city
(the per-Map-entry cityIncome accumulation of calcPlayerAnnualIncome). -/
def ownedCityIncome (owned : List Property) (cityId : String) : Nat :=
  ((owned.filter (fun p => p.cityId = cityId)).map getCurrentIncome).sum

/-- PropertyManager.calcPlayerAnnualIncome: groups the owned properties
by cityId (Map insertion order = first occurrence), sums each city's
current income, and adds a monopoly bonus equal to the city subtotal for
every city whose properties are all owned by the player. -/
def calcPlayerAnnualIncome (properties : List Property) (playerId : String) : IncomeResult :=
  let owned := getOwnedProperties properties playerId
  if owned.isEmpty then
    { playerId := playerId, propertyIncome := 0, monopolyBonus := 0, totalIncome := 0 }
  else
    let cityIds := dedupKeys (owned.map (fun p => p.cityId))
    let propertyIncome := (cityIds.map (fun cityId => ownedCityIncome owned cityId)).sum
    let monopolyBonus := (cityIds.map (fun cityId =>
      let allCityProps := properties.filter (fun p => p.cityId = cityId)
      if allCityProps.length > 0 && allCityProps.all (fun p => p.ownerId = some playerId) then
        ownedCityIncome owned cityId
      else 0)).sum
    { playerId := playerId, propertyIncome := propertyIncome,
      monopolyBonus := monopolyBonus, totalIncome := propertyIncome + monopolyBonus }

/-- PropertyManager.sellPropertyForcibly: refund floor(price * 0.5),
reset ownership to unowned and upgrade level to 0. -/
def sellPropertyForcibly (state : GameState) (playerId propertyId : String) : GameState :=
  match state.players.find? (fun p => p.id = playerId),
        state.properties.find? (fun p => p.id = propertyId) with
  | some _, some property =>
    if property.ownerId ≠ some playerId then state
    else
      let sellValue : Nat := property.price / 2
      let newPlayers := state.players.map (fun p =>
        if p.id = playerId then { p with money := p.money + (sellValue : Int) } else p)
      let newProperties := state.properties.map (fun p =>
        if p.id = propertyId then { p with ownerId := none, upgradeLevel := 0 } else p)
      recalcTotalAssets { state with players := newPlayers, properties := newProperties }
  | _, _ => state

/-- BombeeManager.getLastPlacePlayer / PropertyManager.getLastPlacePlayerId:
Array.reduce keeping the strictly smaller totalAssets
(so the first minimum wins on ties). -/
def getLastPlacePlayer : List Player → Option Player
  | [] => none
  | h :: t => some (t.foldl
      (fun worst p => if p.totalAssets < worst.totalAssets then p else worst) h)

/-! ## CardManager -/

inductive CardFailReason
  | not_found
  | not_owner
  | no_target
  | hand_full
deriving DecidableEq, Repr

structure UseCardResult where
  success : Bool
  reason : Option CardFailReason
  newState : Option GameState
deriving DecidableEq, Repr

structure UseCardOptions where
  targetPlayerId : Option String
  targetPropertyId : Option String
  targetCityId : Option String
  targetCardId : Option String
deriving DecidableEq, Repr

/-- CardManager.getCardById over the loaded catalog. -/
def getCardById (allCards : List Card) (id : String) : Option Card :=
  allCards.find? (fun c => c.id = id)

/-- utils/random randomPick, with the random index supplied as an oracle
(the source always calls it on a non-empty array, where i % length is a
valid index). -/
def randomPickL {α : Type} (l : List α) (i : Nat) (dflt : α) : α :=
  l.getD (i % l.length) dflt

/-- CardManager.useMoveToDest: double_move_next_turn sets the one-shot
dice multiplier; every other target type moves to the destination. -/
def useMoveToDest (state : GameState) (playerId : String) (card : Card) : UseCardResult :=
  if card.effect.targetType = some "double_move_next_turn" then
    let multiplier := card.effect.value.getD 2
    { success := true, reason := none,
      newState := some { state with players := state.players.map (fun p =>
        if p.id = playerId then { p with diceMultiplier := some multiplier } else p) } }
  else
    { success := true, reason := none,
      newState := some { state with players := state.players.map (fun p =>
        if p.id = playerId then
          { p with position := { p.position with cityId := state.destinationCityId } }
        else p) } }

/-- One step of the useGetMoney all_players_each loop: the opponent pays
min(value, its money); the accumulator carries (totalReceived, players). -/
def getMoneyEachStep (value : Int) (acc : Int × List Player) (opp : Player) : Int × List Player :=
  let actual := min value opp.money
  (acc.1 + actual,
   acc.2.map (fun p =>
     if p.id = opp.id then
       { p with money := p.money - actual, totalAssets := p.totalAssets - actual }
     else p))

/-- CardManager.useGetMoney -/
def useGetMoney (state : GameState) (playerId : String) (card : Card) : UseCardResult :=
  let value := card.effect.value.getD 1000
  let targetType := card.effect.targetType
  if targetType = some "property_value_percent" then
    let propTotal : Int := propertyValue state.properties playerId
    let gain := Int.fdiv (propTotal * value) 100
    { success := true, reason := none,
      newState := some { state with players := state.players.map (fun p =>
        if p.id = playerId then
          { p with money := p.money + gain, totalAssets := p.totalAssets + gain }
        else p) } }
  else if targetType = some "all_players_each" then
    let opponents := state.players.filter (fun p => ¬ p.id = playerId)
    let res := opponents.foldl (getMoneyEachStep value) (0, state.players)
    let newPlayers := res.2.map (fun p =>
      if p.id = playerId then
        { p with money := p.money + res.1, totalAssets := p.totalAssets + res.1 }
      else p)
    { success := true, reason := none, newState := some { state with players := newPlayers } }
  else
    { success := true, reason := none,
      newState := some { state with players := state.players.map (fun p =>
        if p.id = playerId then
          { p with money := p.money + value, totalAssets := p.totalAssets + value }
        else p) } }

/-- The usePayMoney all_players_each loop: arguments are the remaining
opponents, totalPaid so far, the actor's remaining money, and the players
accumulator; it stops early once remaining ≤ 0. -/
def payMoneyEachLoop (value : Int) : List Player → Int → Int → List Player → Int × List Player
  | [], totalPaid, _, acc => (totalPaid, acc)
  | opp :: rest, totalPaid, remaining, acc =>
    if remaining ≤ 0 then (totalPaid, acc)
    else
      let actual := min value remaining
      payMoneyEachLoop value rest (totalPaid + actual) (remaining - actual)
        (acc.map (fun p =>
          if p.id = opp.id then
            { p with money := p.money + actual, totalAssets := p.totalAssets + actual }
          else p))

/-- CardManager.usePayMoney.  The source reads the acting player with a
non-null assertion; the none branch is unreachable from useCard. -/
def usePayMoney (state : GameState) (playerId : String) (card : Card) : UseCardResult :=
  match state.players.find? (fun p => p.id = playerId) with
  | none => { success := false, reason := some CardFailReason.not_found, newState := none }
  | some player =>
    let value := card.effect.value.getD 1000
    let targetType := card.effect.targetType
    if targetType = some "property_value_percent" then
      let propTotal : Int := propertyValue state.properties playerId
      let actual := min (Int.fdiv (propTotal * value) 100) player.money
      { success := true, reason := none,
        newState := some { state with players := state.players.map (fun p =>
          if p.id = playerId then
            { p with money := p.money - actual, totalAssets := p.totalAssets - actual }
          else p) } }
    else if targetType = some "total_assets_percent" then
      let actual := min (Int.fdiv (player.totalAssets * value) 100) player.money
      { success := true, reason := none,
        newState := some { state with players := state.players.map (fun p =>
          if p.id = playerId then
            { p with money := p.money - actual, totalAssets := p.totalAssets - actual }
          else p) } }
    else if targetType = some "all_players_each" then
      let opponents := state.players.filter (fun p => ¬ p.id = playerId)
      let res := payMoneyEachLoop value opponents 0 player.money state.players
      let newPlayers := res.2.map (fun p =>
        if p.id = playerId then
          { p with money := p.money - res.1, totalAssets := p.totalAssets - res.1 }
        else p)
      { success := true, reason := none, newState := some { state with players := newPlayers } }
    else
      let actual := min value player.money
      { success := true, reason := none,
        newState := some { state with players := state.players.map (fun p =>
          if p.id = playerId then
            { p with money := p.money - actual, totalAssets := p.totalAssets - actual }
          else p) } }

/-- CardManager.useBombeeTransfer: move the actor's debuff to a chosen
target; no-op failure when the actor has none. -/
def useBombeeTransfer (state : GameState) (fromId toId : String) : UseCardResult :=
  match state.players.find? (fun p => p.id = fromId),
        state.players.find? (fun p => p.id = toId) with
  | some fromP, some _ =>
    if fromP.bombeeType = BombeeType.none then
      { success := false, reason := some CardFailReason.no_target, newState := none }
    else
      { success := true, reason := none,
        newState := some { state with players := state.players.map (fun p =>
          if p.id = fromId then
            { p with bombeeType := BombeeType.none, bombeeElapsedTurns := 0 }
          else if p.id = toId then
            { p with bombeeType := fromP.bombeeType, bombeeElapsedTurns := 0 }
          else p) } }
  | _, _ => { success := false, reason := some CardFailReason.no_target, newState := none }

/-- CardManager.useCardSteal; pickIdx is the oracle for the random pick
when no (valid) target card id is supplied. -/
def useCardSteal (state : GameState) (stealerId targetId : String)
    (targetCardId : Option String) (pickIdx : Nat) : UseCardResult :=
  let stealer := state.players.find? (fun p => p.id = stealerId)
  match state.players.find? (fun p => p.id = targetId) with
  | none => { success := false, reason := some CardFailReason.no_target, newState := none }
  | some target =>
    if target.hand.isEmpty then
      { success := false, reason := some CardFailReason.no_target, newState := none }
    else if (match stealer with
             | some s => decide (s.hand.length ≥ MAX_CARD_COUNT)
             | none => false) then
      { success := false, reason := some CardFailReason.hand_full, newState := none }
    else
      let stolen := match targetCardId with
        | some tc => if tc ∈ target.hand then tc else randomPickL target.hand pickIdx ""
        | none => randomPickL target.hand pickIdx ""
      { success := true, reason := none,
        newState := some { state with players := state.players.map (fun p =>
          if p.id = stealerId then { p with hand := p.hand ++ [stolen] }
          else if p.id = targetId then
            { p with hand := p.hand.filter (fun id => ¬ id = stolen) }
          else p) } }

/-- CardManager.useMoveToCity: targetType holds the destination city id. -/
def useMoveToCity (state : GameState) (playerId : String) (card : Card) : UseCardResult :=
  let targetCityId := card.effect.targetType.getD "tokyo"
  { success := true, reason := none,
    newState := some { state with players := state.players.map (fun p =>
      if p.id = playerId then
        { p with position := { p.position with cityId := targetCityId } }
      else p) } }

/-- CardManager.useBombeeAway: remove the debuff from self, optionally
granting immunity years (self_permanent). -/
def useBombeeAway (state : GameState) (playerId : String) (card : Card) : UseCardResult :=
  match state.players.find? (fun p => p.id = playerId) with
  | none => { success := true, reason := none, newState := some state }
  | some player =>
    if player.bombeeType = BombeeType.none then
      { success := true, reason := none, newState := some state }
    else
      let isPermanent := card.effect.targetType = some "self_permanent"
      let immuneYears : Nat := if isPermanent then (card.effect.value.getD 1).toNat else 0
      { success := true, reason := none,
        newState := some { state with players := state.players.map (fun p =>
          if p.id = playerId then
            { p with bombeeType := BombeeType.none, bombeeElapsedTurns := 0,
                     bombeeImmuneYears := some immuneYears }
          else p) } }

/-- CardManager.useBombeeTransferLastToSecond: a stable ascending sort by
totalAssets (List.insertionSort models the stable Array.sort of the
source); the debuff moves from sorted[0] to sorted[1]. -/
def useBombeeTransferLastToSecond (state : GameState) : UseCardResult :=
  let sorted := state.players.insertionSort (fun a b => a.totalAssets ≤ b.totalAssets)
  if h : sorted.length < 2 then
    { success := false, reason := some CardFailReason.no_target, newState := none }
  else
    let last := sorted.get ⟨0, by omega⟩
    let second := sorted.get ⟨1, by omega⟩
    if last.bombeeType = BombeeType.none then
      { success := false, reason := some CardFailReason.no_target, newState := none }
    else
      { success := true, reason := none,
        newState := some { state with players := state.players.map (fun p =>
          if p.id = last.id then
            { p with bombeeType := BombeeType.none, bombeeElapsedTurns := 0 }
          else if p.id = second.id then
            { p with bombeeType := last.bombeeType, bombeeElapsedTurns := 0 }
          else p) } }

/-- Array.reduce picking the element with the strictly smaller price
(first minimum wins), as used for cheapest-property searches and as the
result of .sort((a,b) => a.price - b.price)[0]. -/
def minByPrice : List Property → Option Property
  | [] => none
  | h :: t => some (t.foldl (fun m p => if p.price < m.price then p else m) h)

/-- CardManager.useSellProperty -/
def useSellProperty (state : GameState) (playerId : String) (card : Card)
    (targetPropertyId targetPlayerId currentCityId : Option String) : UseCardResult :=
  let sellNum : Int := card.effect.value.getD 100
  -- Math.floor(price * (value / 100)) over integers
  let sellPrice : Nat → Int := fun price => Int.fdiv ((price : Int) * sellNum) 100
  if _hcc : card.effect.targetType = some "current_city_all" ∧ currentCityId ≠ none then
    let cityId := currentCityId.getD ""
    let cityOwned := state.properties.filter
      (fun p => p.cityId = cityId ∧ p.ownerId = some playerId)
    if cityOwned.isEmpty then
      { success := false, reason := some CardFailReason.no_target, newState := none }
    else
      let totalReceived := (cityOwned.map (fun p => sellPrice p.price)).sum
      let newProperties := state.properties.map (fun p =>
        if cityOwned.any (fun q => q.id = p.id) then
          { p with ownerId := none, upgradeLevel := 0 }
        else p)
      let newPlayers := state.players.map (fun p =>
        if p.id = playerId then { p with money := p.money + totalReceived } else p)
      { success := true, reason := none,
        newState := some (recalcTotalAssets
          { state with players := newPlayers, properties := newProperties }) }
  else if _hof : card.effect.targetType = some "opponent_forced" ∧ targetPlayerId ≠ none then
    let tid := targetPlayerId.getD ""
    let oppProps := state.properties.filter (fun p => p.ownerId = some tid)
    match minByPrice oppProps with
    | none => { success := false, reason := some CardFailReason.no_target, newState := none }
    | some cheapest =>
      let price := sellPrice cheapest.price
      let newPlayers := state.players.map (fun p =>
        if p.id = tid then { p with money := p.money + price } else p)
      let newProperties := state.properties.map (fun p =>
        if p.id = cheapest.id then { p with ownerId := none, upgradeLevel := 0 } else p)
      { success := true, reason := none,
        newState := some (recalcTotalAssets
          { state with players := newPlayers, properties := newProperties }) }
  else
    match _hw : state.properties.filter (fun p => p.ownerId = some playerId) with
    | [] => { success := false, reason := some CardFailReason.no_target, newState := none }
    | o0 :: orest =>
      let owned := o0 :: orest
      let chosen : Option Property := match targetPropertyId with
        | some tid => owned.find? (fun p => p.id = tid)
        | none => none
      -- (find ?? null) ?? owned[0]
      let target := chosen.getD o0
      let price := sellPrice target.price
      let newPlayers := state.players.map (fun p =>
        if p.id = playerId then { p with money := p.money + price } else p)
      let newProperties := state.properties.map (fun p =>
        if p.id = target.id then { p with ownerId := none, upgradeLevel := 0 } else p)
      { success := true, reason := none,
        newState := some (recalcTotalAssets
          { state with players := newPlayers, properties := newProperties }) }

/-- Array.reduce picking the element with the strictly larger
totalAssets (first maximum wins). -/
def maxByAssets : List Player → Option Player
  | [] => none
  | h :: t => some (t.foldl (fun best p => if best.totalAssets < p.totalAssets then p else best) h)

/-- CardManager.useStealProperty -/
def useStealProperty (state : GameState) (playerId : String) (card : Card)
    (currentCityId : Option String) : UseCardResult :=
  if _hcc : card.effect.targetType = some "current_city_all" ∧ currentCityId ≠ none then
    let cityId := currentCityId.getD ""
    let cityOppProps := state.properties.filter
      (fun p => p.cityId = cityId ∧ ¬ p.ownerId = none ∧ ¬ p.ownerId = some playerId)
    if cityOppProps.isEmpty then
      { success := false, reason := some CardFailReason.no_target, newState := none }
    else
      let newProperties := state.properties.map (fun p =>
        if cityOppProps.any (fun q => q.id = p.id) then { p with ownerId := some playerId }
        else p)
      { success := true, reason := none,
        newState := some (recalcTotalAssets { state with properties := newProperties }) }
  else
    let opponents := state.players.filter (fun p => ¬ p.id = playerId)
    match maxByAssets opponents with
    | none => { success := false, reason := some CardFailReason.no_target, newState := none }
    | some richest =>
      let oppProps := state.properties.filter (fun p => p.ownerId = some richest.id)
      match minByPrice oppProps with
      | none => { success := false, reason := some CardFailReason.no_target, newState := none }
      | some cheapest =>
        let newProperties := state.properties.map (fun p =>
          if p.id = cheapest.id then { p with ownerId := some playerId } else p)
        { success := true, reason := none,
          newState := some (recalcTotalAssets { state with properties := newProperties }) }

/-- The first city (in first-occurrence order) fully owned by some
opponent, together with that opponent (the nested search loop of
useMonopolyBreak). -/
def findMonopolyCity (properties : List Property) (opponentIds : List String) :
    List String → Option (String × List Property)
  | [] => none
  | cityId :: rest =>
    let cityProps := properties.filter (fun p => p.cityId = cityId)
    if cityProps.isEmpty then findMonopolyCity properties opponentIds rest
    else
      match opponentIds.find? (fun oppId => cityProps.all (fun p => p.ownerId = some oppId)) with
      | some oppId => some (oppId, cityProps)
      | none => findMonopolyCity properties opponentIds rest

/-- The bestTarget accumulator of useMonopolyBreak: an opponent, one of
their properties in the city, and the ownership ratio num/den. -/
structure BreakTarget where
  oppId : String
  prop : Property
  num : Nat
  den : Nat
deriving DecidableEq, Repr

/-- The bestTarget search of useMonopolyBreak: the highest non-100%
ownership share (float division compared exactly, by cross
multiplication). -/
def bestNonMonopoly (properties : List Property) (cityIds opponentIds : List String) :
    Option BreakTarget :=
  cityIds.foldl (fun best cityId =>
    let cityProps := properties.filter (fun p => p.cityId = cityId)
    if cityProps.length ≤ 1 then best
    else
      opponentIds.foldl (fun best oppId =>
        let count := (cityProps.filter (fun p => p.ownerId = some oppId)).length
        let isBetter := match best with
          | none => true
          | some b => decide (count * b.den > b.num * cityProps.length)
        if count > 0 && count < cityProps.length && isBetter then
          match cityProps.find? (fun p => p.ownerId = some oppId) with
          | some prop => some { oppId := oppId, prop := prop, num := count,
                                den := cityProps.length }
          | none => best
        else best) best) none

/-- CardManager.useMonopolyBreak -/
def useMonopolyBreak (state : GameState) (playerId : String) (_card : Card) : UseCardResult :=
  let opponentIds := (state.players.filter (fun p => ¬ p.id = playerId)).map (fun p => p.id)
  let cityIds := dedupKeys (state.properties.map (fun p => p.cityId))
  match findMonopolyCity state.properties opponentIds cityIds with
  | some (oppId, cityProps) =>
    match minByPrice cityProps with
    | none => { success := false, reason := some CardFailReason.no_target, newState := none }
    | some cheapest =>
      let refund : Nat := cheapest.price * 8 / 10
      let newPlayers := state.players.map (fun p =>
        if p.id = oppId then { p with money := p.money + (refund : Int) } else p)
      let newProperties := state.properties.map (fun p =>
        if p.id = cheapest.id then { p with ownerId := none, upgradeLevel := 0 } else p)
      { success := true, reason := none,
        newState := some (recalcTotalAssets
          { state with players := newPlayers, properties := newProperties }) }
  | none =>
    match bestNonMonopoly state.properties cityIds opponentIds with
    | some bestTarget =>
      let refund : Nat := bestTarget.prop.price * 8 / 10
      let newPlayers := state.players.map (fun p =>
        if p.id = bestTarget.oppId then { p with money := p.money + (refund : Int) } else p)
      let newProperties := state.properties.map (fun p =>
        if p.id = bestTarget.prop.id then { p with ownerId := none, upgradeLevel := 0 } else p)
      { success := true, reason := none,
        newState := some (recalcTotalAssets
          { state with players := newPlayers, properties := newProperties }) }
    | none => { success := false, reason := some CardFailReason.no_target, newState := none }

/-- First element of .sort((a,b) => a.price - b.price) over a filtered
list: the earliest property of minimal price, i.e. minByPrice. -/
def cheapestUnownedAffordable (properties : List Property) (money : Int) : Option Property :=
  minByPrice (properties.filter (fun p => p.ownerId = none ∧ money ≥ (p.price : Int)))

/-- CardManager.useBuyProperty -/
def useBuyProperty (state : GameState) (playerId : String) (card : Card)
    (currentCityId : Option String) : UseCardResult :=
  match state.players.find? (fun p => p.id = playerId) with
  | none => { success := false, reason := some CardFailReason.not_found, newState := none }
  | some player =>
    let targetType := card.effect.targetType
    if _hfree : targetType = some "current_city_free_one" ∧ currentCityId ≠ none then
      let cityId := currentCityId.getD ""
      match state.properties.find? (fun p => p.cityId = cityId ∧ p.ownerId = none) with
      | none => { success := false, reason := some CardFailReason.no_target, newState := none }
      | some unowned =>
        let newProperties := state.properties.map (fun p =>
          if p.id = unowned.id then { p with ownerId := some playerId } else p)
        { success := true, reason := none,
          newState := some (recalcTotalAssets { state with properties := newProperties }) }
    else if _hany : targetType = some "any_location" then
      match cheapestUnownedAffordable state.properties player.money with
      | none => { success := false, reason := some CardFailReason.no_target, newState := none }
      | some unowned =>
        let newPlayers := state.players.map (fun p =>
          if p.id = playerId then { p with money := p.money - (unowned.price : Int) } else p)
        let newProperties := state.properties.map (fun p =>
          if p.id = unowned.id then { p with ownerId := some playerId } else p)
        { success := true, reason := none,
          newState := some (recalcTotalAssets
            { state with players := newPlayers, properties := newProperties }) }
    else if _hcur : currentCityId ≠ none then
      let cityId := currentCityId.getD ""
      let discountPct := card.effect.value.getD 0
      match minByPrice (state.properties.filter
              (fun p => p.cityId = cityId ∧ p.ownerId = none)) with
      | none => { success := false, reason := some CardFailReason.no_target, newState := none }
      | some unowned =>
        -- Math.floor(price * (1 - pct/100)) = fdiv (price * (100 - pct)) 100
        let discountedPrice := Int.fdiv ((unowned.price : Int) * (100 - discountPct)) 100
        if player.money < discountedPrice then
          { success := false, reason := some CardFailReason.no_target, newState := none }
        else
          let newPlayers := state.players.map (fun p =>
            if p.id = playerId then { p with money := p.money - discountedPrice } else p)
          let newProperties := state.properties.map (fun p =>
            if p.id = unowned.id then { p with ownerId := some playerId } else p)
          { success := true, reason := none,
            newState := some (recalcTotalAssets
              { state with players := newPlayers, properties := newProperties }) }
    else
      { success := false, reason := some CardFailReason.no_target, newState := none }

/-- CardManager.useDoubleIncome -/
def useDoubleIncome (state : GameState) (playerId : String) (card : Card) : UseCardResult :=
  let multiplier := card.effect.value.getD 2
  if card.effect.targetType = some "one_month" then
    let owned := state.properties.filter (fun p => p.ownerId = some playerId)
    let monthlyIncome : Nat := (owned.map (fun p => getCurrentIncome p / 12)).sum
    let gain := (monthlyIncome : Int) * multiplier
    { success := true, reason := none,
      newState := some { state with players := state.players.map (fun p =>
        if p.id = playerId then
          { p with money := p.money + gain, totalAssets := p.totalAssets + gain }
        else p) } }
  else
    { success := true, reason := none,
      newState := some { state with players := state.players.map (fun p =>
        if p.id = playerId then { p with incomeMultiplier := some multiplier } else p) } }

/-- The removeFromHand closure of useCard: delete every copy of cardId
from the acting player's hand. -/
def removeFromHand (state : GameState) (playerId cardId : String) : GameState :=
  { state with players := state.players.map (fun p =>
      if p.id = playerId then
        { p with hand := p.hand.filter (fun id => ¬ id = cardId) }
      else p) }

/-- CardManager.useCard: fail not_found for an unknown player or card,
not_owner when the card is not in hand; otherwise remove the card from
hand and dispatch on the card type. -/
def useCard (allCards : List Card) (state : GameState) (playerId cardId : String)
    (options : UseCardOptions) (pickIdx : Nat) : UseCardResult :=
  match state.players.find? (fun p => p.id = playerId), getCardById allCards cardId with
  | some player, some card =>
    if cardId ∉ player.hand then
      { success := false, reason := some CardFailReason.not_owner, newState := none }
    else
      let sar := removeFromHand state playerId cardId
      match card.type with
      | CardType.move_to_destination => useMoveToDest sar playerId card
      | CardType.get_money => useGetMoney sar playerId card
      | CardType.pay_money => usePayMoney sar playerId card
      | CardType.bombee_transfer =>
        if card.effect.targetType = some "last_to_second" then
          useBombeeTransferLastToSecond sar
        else
          match options.targetPlayerId with
          | none => { success := false, reason := some CardFailReason.no_target, newState := none }
          | some tid => useBombeeTransfer sar playerId tid
      | CardType.card_steal =>
        match options.targetPlayerId with
        | none => { success := false, reason := some CardFailReason.no_target, newState := none }
        | some tid => useCardSteal sar playerId tid options.targetCardId pickIdx
      | CardType.move_to_city => useMoveToCity sar playerId card
      | CardType.bombee_away => useBombeeAway sar playerId card
      | CardType.sell_property =>
        useSellProperty sar playerId card options.targetPropertyId options.targetPlayerId
          options.targetCityId
      | CardType.steal_property => useStealProperty sar playerId card options.targetCityId
      | CardType.monopoly_break => useMonopolyBreak sar playerId card
      | CardType.buy_property => useBuyProperty sar playerId card options.targetCityId
      | CardType.double_income => useDoubleIncome sar playerId card
      | CardType.move_steps => { success := true, reason := none, newState := some sar }
      | CardType.plus_dice => { success := true, reason := none, newState := some sar }
  | _, _ => { success := false, reason := some CardFailReason.not_found, newState := none }

/-! ## BombeeManager -/

inductive KingChoice
  | sell_all
  | steal_big
  | affect_all
deriving DecidableEq, Repr

/-- The random draws a single bombee turn can consume.  The Int fields
stand for the already floored Math.floor(money * rate) of the respective
tier (mini rate 0.05-0.15, normal 0.2-0.4, king 0.4-0.6). -/
structure BombeeOracle where
  sellCoin : Bool
  pickIdx : Nat
  kingChoice : KingChoice
  moveCoin : Bool
  miniFloor : Int
  normalFloor : Int
  kingFloor : Int
deriving DecidableEq, Repr

/-- BombeeManager.attachBombeeToLastPlace: when nobody carries the
debuff and 2+ players exist, attach mini to the non-immune player with
the least totalAssets, or to the overall last place if all are immune. -/
def attachBombeeToLastPlace (state : GameState) : GameState :=
  if state.players.any (fun p => ¬ p.bombeeType = BombeeType.none) then state
  else if state.players.length < 2 then state
  else
    match getLastPlacePlayer state.players with
    | none => state
    | some lastPlayer =>
      let eligible := getLastPlacePlayer
        (state.players.filter (fun p => p.bombeeImmuneYears.getD 0 = 0))
      let target := eligible.getD lastPlayer
      { state with players := state.players.map (fun p =>
          if p.id = target.id then
            { p with bombeeType := BombeeType.mini, bombeeElapsedTurns := 0 }
          else p) }

/-- BombeeManager.decrementBombeeImmunity -/
def decrementBombeeImmunity (state : GameState) : GameState :=
  { state with players := state.players.map (fun p =>
      if p.bombeeImmuneYears.getD 0 > 0 then
        { p with bombeeImmuneYears := some (p.bombeeImmuneYears.getD 0 - 1) }
      else p) }

/-- BombeeManager.checkEvolution -/
def checkEvolution (current : BombeeType) (elapsed : Nat) : BombeeType :=
  if current = BombeeType.mini ∧ elapsed ≥ MINI_TO_NORMAL_TURNS then BombeeType.normal
  else if current = BombeeType.normal ∧ elapsed ≥ NORMAL_TO_KING_TURNS then BombeeType.king
  else current

/-- BombeeManager.miniAction: steal max(100, floor(money * rate)) capped
at the target's money; no-op when nothing can be taken. -/
def miniAction (state : GameState) (target : Player) (floorAmt : Int) : GameState :=
  let stolen := max 100 floorAmt
  let actualStolen := min stolen target.money
  if actualStolen ≤ 0 then state
  else
    { state with players := state.players.map (fun p =>
        if p.id = target.id then
          { p with money := p.money - actualStolen, totalAssets := p.totalAssets - actualStolen }
        else p) }

/-- BombeeManager.normalAction: with probability 1/2 force-sell one
random owned property at 70% of price, else steal
max(500, floor(money * rate)) capped at the target's money. -/
def normalAction (state : GameState) (target : Player) (o : BombeeOracle) : GameState :=
  let ownedProperties := state.properties.filter (fun p => p.ownerId = some target.id)
  if ¬ ownedProperties.isEmpty ∧ o.sellCoin then
    match ownedProperties.get? (o.pickIdx % ownedProperties.length) with
    | none => state
    | some prop =>
      let sellValue : Nat := prop.price * 7 / 10
      { state with
        players := state.players.map (fun p =>
          if p.id = target.id then
            { p with money := p.money + (sellValue : Int),
                     totalAssets := p.totalAssets - ((prop.price : Int) - (sellValue : Int)) }
          else p),
        properties := state.properties.map (fun p =>
          if p.id = prop.id then { p with ownerId := none } else p) }
  else
    let stolen := max 500 o.normalFloor
    let actualStolen := min stolen target.money
    if actualStolen ≤ 0 then state
    else
      { state with players := state.players.map (fun p =>
          if p.id = target.id then
            { p with money := p.money - actualStolen, totalAssets := p.totalAssets - actualStolen }
          else p) }

/-- BombeeManager.kingAction steal_big branch: steal
max(2000, floor(money * rate)) capped at the target's money. -/
def kingStealBig (state : GameState) (target : Player) (floorAmt : Int) : GameState :=
  let stolen := max 2000 floorAmt
  let actualStolen := min stolen target.money
  if actualStolen ≤ 0 then state
  else
    { state with players := state.players.map (fun p =>
        if p.id = target.id then
          { p with money := p.money - actualStolen, totalAssets := p.totalAssets - actualStolen }
        else p) }

/-- BombeeManager.kingAction: force-sell up to the first 3 owned
properties at a 30%-of-price money loss and a doubled totalAssets loss,
or hit every player for max(100, floor(money * 0.1)), or steal big; the
sell branch falls through to steal when no property is owned. -/
def kingAction (state : GameState) (target : Player) (o : BombeeOracle) : GameState :=
  match o.kingChoice with
  | KingChoice.sell_all =>
    let ownedProperties := (state.properties.filter (fun p => p.ownerId = some target.id)).take 3
    if ownedProperties.isEmpty then kingStealBig state target o.kingFloor
    else
      let totalLoss : Int := ((ownedProperties.map (fun p => p.price * 3 / 10)).sum : Nat)
      let newProperties := state.properties.map (fun p =>
        if ownedProperties.any (fun q => q.id = p.id) then { p with ownerId := none } else p)
      { state with
        properties := newProperties,
        players := state.players.map (fun p =>
          if p.id = target.id then
            { p with money := max 0 (p.money - totalLoss),
                     totalAssets := max 0 (p.totalAssets - totalLoss * 2) }
          else p) }
  | KingChoice.affect_all =>
    { state with players := state.players.map (fun p =>
        let damage := max 100 (Int.fdiv p.money 10)
        let actual := min damage p.money
        { p with money := p.money - actual, totalAssets := p.totalAssets - actual }) }
  | KingChoice.steal_big => kingStealBig state target o.kingFloor

/-- BombeeManager.executeBombeeEffect -/
def executeBombeeEffect (state : GameState) (targetId : String) (bombeeType : BombeeType)
    (o : BombeeOracle) : GameState :=
  match state.players.find? (fun p => p.id = targetId) with
  | none => state
  | some target =>
    match bombeeType with
    | BombeeType.mini => miniAction state target o.miniFloor
    | BombeeType.normal => normalAction state target o
    | BombeeType.king => kingAction state target o
    | BombeeType.none => state

/-- BombeeManager.maybeMoveToLastPlace: if the carrier is not the
immunity-filtered last place, a 75% coin moves the debuff to that last
place, resetting the elapsed counter. -/
def maybeMoveToLastPlace (state : GameState) (currentBombeeId : String)
    (o : BombeeOracle) : GameState :=
  let eligible := state.players.filter (fun p =>
    ¬ p.id = currentBombeeId ∧ p.bombeeImmuneYears.getD 0 = 0)
  match getLastPlacePlayer eligible with
  | none => state
  | some lastPlayer =>
    match state.players.find? (fun p => p.id = currentBombeeId) with
    | none => state
    | some currentBombeePlayer =>
      if currentBombeePlayer.totalAssets ≤ lastPlayer.totalAssets then state
      else if o.moveCoin then
        { state with players := state.players.map (fun p =>
            if p.id = currentBombeeId then
              { p with bombeeType := BombeeType.none, bombeeElapsedTurns := 0 }
            else if p.id = lastPlayer.id then
              { p with bombeeType := currentBombeePlayer.bombeeType, bombeeElapsedTurns := 0 }
            else p) }
      else state

/-- BombeeManager.processBombeeAction: bump the elapsed counter, evolve
the tier, run the per-tier effect, then maybe migrate to last place. -/
def processBombeeAction (state : GameState) (o : BombeeOracle) : GameState :=
  match state.players.find? (fun p => ¬ p.bombeeType = BombeeType.none) with
  | none => state
  | some bombeePlayer =>
    let newElapsed := bombeePlayer.bombeeElapsedTurns + 1
    let evolvedType := checkEvolution bombeePlayer.bombeeType newElapsed
    let state1 := { state with players := state.players.map (fun p =>
        if p.id = bombeePlayer.id then
          { p with bombeeType := evolvedType, bombeeElapsedTurns := newElapsed }
        else p) }
    let state2 := executeBombeeEffect state1 bombeePlayer.id evolvedType o
    maybeMoveToLastPlace state2 bombeePlayer.id o

/-- BombeeManager.removeBombee -/
def removeBombee (state : GameState) (targetId : String) : GameState :=
  { state with players := state.players.map (fun p =>
      if p.id = targetId then
        { p with bombeeType := BombeeType.none, bombeeElapsedTurns := 0 }
      else p) }

/-! ## Derived notions used by the specification -/

/-- The specification's per-player wealth invariant:
totalAssets equals money plus the prices of the owned properties. -/
def assetsInvariant (state : GameState) : Prop :=
  ∀ p ∈ state.players, p.totalAssets = p.money + (propertyValue state.properties p.id : Int)

/-- Number of players currently carrying a debuff. -/
def bombeeCount (players : List Player) : Nat :=
  (players.filter (fun p => ¬ p.bombeeType = BombeeType.none)).length

/-- The specification's debuff invariant: at most one carrier. -/
def atMostOneBombee (state : GameState) : Prop :=
  bombeeCount state.players ≤ 1

/-- Well-formedness: player ids are pairwise distinct. -/
def playersWF (state : GameState) : Prop :=
  (state.players.map (fun p => p.id)).Nodup

/-! ## Generic list lemmas -/

/-- A projection unchanged by a rewriting function commutes with map. -/
theorem map_proj_eq {α β : Type} (g : α → β) (f : α → α) (l : List α)
    (h : ∀ p, g (f p) = g p) : (l.map f).map g = l.map g := by
  induction l with
  | nil => rfl
  | cons a t ih => simp [h a, ih]

theorem exists_of_mem_map_proj {α β : Type} {g : α → β} {l₁ l₂ : List α}
    (hsim : l₂.map g = l₁.map g) {q : α} (hq : q ∈ l₂) :
    ∃ p ∈ l₁, g p = g q := by
  have hmem : g q ∈ l₂.map g := List.mem_map_of_mem g hq
  rw [hsim] at hmem
  rcases List.mem_map.1 hmem with ⟨p, hp, hgp⟩
  exact ⟨p, hp, hgp⟩

theorem length_filter_le_one_of_nodup {α : Type} (l : List α) (f : α → String)
    (hnd : (l.map f).Nodup) (x : String) :
    (l.filter (fun p => f p = x)).length ≤ 1 := by
  induction l with
  | nil => simp
  | cons a t ih =>
    simp only [List.map_cons, List.nodup_cons] at hnd
    by_cases hax : f a = x
    · have : t.filter (fun p => f p = x) = [] := by
        apply List.filter_eq_nil_iff.2
        intro b hb
        simp only [decide_eq_true_eq]
        intro hbx
        exact hnd.1 (hax ▸ hbx ▸ List.mem_map_of_mem f hb)
      simp [List.filter_cons, hax, this]
    · simpa [List.filter_cons, hax] using ih hnd.2

/-! ## Projections of a player preserved by the various operations -/

def gHand (p : Player) : String × List String := (p.id, p.hand)

def gDelta (p : Player) : String × Int := (p.id, p.totalAssets - p.money)

def gBombee (p : Player) : String × BombeeType := (p.id, p.bombeeType)

def gMoney (p : Player) : String × Int := (p.id, p.money)

/-- recalcTotalAssets establishes the wealth invariant outright. -/
theorem assetsInvariant_recalc (s : GameState) : assetsInvariant (recalcTotalAssets s) := by
  intro q hq
  simp only [recalcTotalAssets, List.mem_map] at hq
  rcases hq with ⟨p, _, rfl⟩
  rfl

/-- The wealth invariant only depends on the (id, totalAssets - money)
projection of the players and on the properties. -/
theorem assetsInvariant_of_proj {s : GameState} {l₂ : List Player}
    (hsim : l₂.map gDelta = s.players.map gDelta) (hinv : assetsInvariant s) :
    assetsInvariant { s with players := l₂ } := by
  intro q hq
  rcases exists_of_mem_map_proj hsim hq with ⟨p, hp, hgp⟩
  have h1 : p.id = q.id := congrArg Prod.fst hgp
  have h2 : p.totalAssets - p.money = q.totalAssets - q.money := congrArg Prod.snd hgp
  have h3 := hinv p hp
  simp only [GameState.mk.injEq] at *
  rw [← h1]
  omega

/-- Pointwise-equal functions give equal maps. -/
theorem map_fun_congr {α β : Type} (l : List α) (f g : α → β) (h : ∀ a, f a = g a) :
    l.map f = l.map g := by
  rw [funext h]

/-! ## Example fixtures used by concrete witnesses -/

def exPos : Position := ⟨"tokyo", none, 0, none⟩

def exPlayer (id : String) (money : Int) (hand : List String) (bt : BombeeType) : Player :=
  ⟨id, money, money, exPos, hand, bt, 0, none, none, none⟩

def exProp (id city : String) (price income : Nat) (owner : Option String) (lvl : Nat) :
    Property :=
  ⟨id, city, price, income, [500, 1000], [300, 500], lvl, owner⟩

/-- Fresh two-player state: a and b at 10000, one unowned 1000/200 property. -/
def exBuyState : GameState :=
  ⟨[exPlayer "a" 10000 [] BombeeType.none, exPlayer "b" 10000 [] BombeeType.none],
   [exProp "h1" "tokyo" 1000 200 none 0], "osaka"⟩

/-- A poor buyer facing a property already owned by b. -/
def exOwnedState : GameState :=
  ⟨[exPlayer "a" 10 [] BombeeType.none, exPlayer "b" 0 [] BombeeType.none],
   [exProp "h1" "tokyo" 1000 200 (some "b") 0], "osaka"⟩

/-! ## Claim C2: buyProperty -/

/-- C2 (amended): with the buying player and property known, buyProperty
succeeds whenever the property is unowned and money ≥ price, deducting
exactly the price, handing ownership to the buyer and recomputing every
totalAssets; with the property unowned but money < price it fails
not_enough_money leaving the state unchanged; with an owner present it
fails already_owned leaving the state unchanged (ownership is checked
before funds). -/
theorem buyProperty_spec (state : GameState) (playerId propertyId : String)
    (player : Player) (property : Property)
    (hp : state.players.find? (fun p => p.id = playerId) = some player)
    (hr : state.properties.find? (fun p => p.id = propertyId) = some property) :
    (property.ownerId = none → (property.price : Int) ≤ player.money →
      ∃ s2, buyProperty state playerId propertyId =
          { success := true, reason := none, newState := some s2 } ∧
        s2.players.map gMoney = state.players.map (fun p =>
          (p.id, if p.id = playerId then p.money - (property.price : Int) else p.money)) ∧
        s2.properties.map (fun p => (p.id, p.ownerId)) = state.properties.map (fun p =>
          (p.id, if p.id = propertyId then some playerId else p.ownerId)) ∧
        assetsInvariant s2) ∧
    (property.ownerId = none → player.money < (property.price : Int) →
      buyProperty state playerId propertyId =
        { success := false, reason := some PurchaseReason.not_enough_money,
          newState := none }) ∧
    (property.ownerId ≠ none →
      buyProperty state playerId propertyId =
        { success := false, reason := some PurchaseReason.already_owned,
          newState := none }) := by
  refine ⟨?_, ?_, ?_⟩
  · intro howner hmoney
    have hbuy : buyProperty state playerId propertyId =
        { success := true, reason := none,
          newState := some (recalcTotalAssets { state with
            players := state.players.map (fun p =>
              if p.id = playerId then
                { p with money := p.money - (property.price : Int) }
              else p),
            properties := state.properties.map (fun p =>
              if p.id = propertyId then { p with ownerId := some playerId } else p) }) } := by
      simp only [buyProperty, hp, hr, howner, getCurrentPrice]
      rw [if_neg (by simp), if_neg (by omega)]
    refine ⟨_, hbuy, ?_, ?_, assetsInvariant_recalc _⟩
    · simp only [recalcTotalAssets, List.map_map]
      refine map_fun_congr _ _ _ (fun p => ?_)
      by_cases hid : p.id = playerId <;> simp [Function.comp, gMoney, hid]
    · simp only [recalcTotalAssets, List.map_map]
      refine map_fun_congr _ _ _ (fun p => ?_)
      by_cases hid : p.id = propertyId <;> simp [Function.comp, hid]
  · intro howner hmoney
    simp only [buyProperty, hp, hr, howner, getCurrentPrice]
    rw [if_neg (by simp), if_pos (by omega)]
  · intro howner
    simp only [buyProperty, hp, hr]
    rw [if_pos (by simpa using howner)]

/-- C2 witness: the specification's own example, 1000-unit property
bought with 10000 money, plus the not_enough_money and already_owned
cases on concrete states. -/
theorem buyProperty_spec_witness :
    (∃ s2, buyProperty exBuyState "a" "h1" =
        { success := true, reason := none, newState := some s2 } ∧
      s2.players.map gMoney = exBuyState.players.map (fun p =>
        (p.id, if p.id = "a" then p.money - (1000 : Int) else p.money)) ∧
      s2.properties.map (fun p => (p.id, p.ownerId)) = exBuyState.properties.map (fun p =>
        (p.id, if p.id = "h1" then some "a" else p.ownerId)) ∧
      assetsInvariant s2) ∧
    buyProperty exOwnedState "a" "h1" =
      { success := false, reason := some PurchaseReason.already_owned, newState := none } := by
  constructor
  · exact (buyProperty_spec exBuyState "a" "h1" (exPlayer "a" 10000 [] BombeeType.none)
      (exProp "h1" "tokyo" 1000 200 none 0) (by decide) (by decide)).1 (by decide) (by decide)
  · exact (buyProperty_spec exOwnedState "a" "h1" (exPlayer "a" 10 [] BombeeType.none)
      (exProp "h1" "tokyo" 1000 200 (some "b") 0) (by decide) (by decide)).2.2 (by decide)

/-- C2 counterexample: with the property owned by b and the buyer short
of funds, the source returns already_owned, not the not_enough_money the
claim promises for every money < price state (ownership is checked
first). -/
theorem buyProperty_priority_counterexample :
    exOwnedState.players.find? (fun p => p.id = "a") =
      some (exPlayer "a" 10 [] BombeeType.none) ∧
    (exPlayer "a" 10 [] BombeeType.none).money < 1000 ∧
    exOwnedState.properties.find? (fun p => p.id = "h1") =
      some (exProp "h1" "tokyo" 1000 200 (some "b") 0) ∧
    (exProp "h1" "tokyo" 1000 200 (some "b") 0).price = 1000 ∧
    buyProperty exOwnedState "a" "h1" =
      { success := false, reason := some PurchaseReason.already_owned, newState := none } ∧
    ¬ (buyProperty exOwnedState "a" "h1").reason = some PurchaseReason.not_enough_money := by
  decide

/-! ## Claim C3: outcomes for unknown ids -/

/-- C3 (amended): useCard returns the typed outcome not_found (with no
new state) for an unknown player or card id, but
PropertyManager.buyProperty reports unknown player/property ids as
not_enough_money — its result type cannot even express not_found. -/
theorem unknown_id_outcomes (allCards : List Card) (state : GameState)
    (playerId cardId propertyId : String) (options : UseCardOptions) (pickIdx : Nat) :
    (state.players.find? (fun p => p.id = playerId) = none →
      useCard allCards state playerId cardId options pickIdx =
        { success := false, reason := some CardFailReason.not_found, newState := none }) ∧
    (getCardById allCards cardId = none →
      useCard allCards state playerId cardId options pickIdx =
        { success := false, reason := some CardFailReason.not_found, newState := none }) ∧
    (state.players.find? (fun p => p.id = playerId) = none →
      buyProperty state playerId propertyId =
        { success := false, reason := some PurchaseReason.not_enough_money,
          newState := none }) ∧
    (state.properties.find? (fun p => p.id = propertyId) = none →
      buyProperty state playerId propertyId =
        { success := false, reason := some PurchaseReason.not_enough_money,
          newState := none }) := by
  refine ⟨?_, ?_, ?_, ?_⟩
  · intro h
    rcases hc : getCardById allCards cardId with _ | c <;> simp [useCard, h, hc]
  · intro h
    rcases hp : state.players.find? (fun p => p.id = playerId) with _ | p <;>
      simp [useCard, h, hp]
  · intro h
    rcases hr : state.properties.find? (fun p => p.id = propertyId) with _ | r <;>
      simp [buyProperty, h, hr]
  · intro h
    rcases hp : state.players.find? (fun p => p.id = playerId) with _ | p <;>
      simp [buyProperty, h, hp]

/-- C3 witness: unknown ids against the concrete two-player state. -/
theorem unknown_id_outcomes_witness :
    useCard [] exBuyState "ghost" "ghostCard" ⟨none, none, none, none⟩ 0 =
      { success := false, reason := some CardFailReason.not_found, newState := none } ∧
    buyProperty exBuyState "ghost" "h1" =
      { success := false, reason := some PurchaseReason.not_enough_money,
        newState := none } := by
  constructor
  · exact (unknown_id_outcomes [] exBuyState "ghost" "ghostCard" "h1"
      ⟨none, none, none, none⟩ 0).1 (by decide)
  · exact (unknown_id_outcomes [] exBuyState "ghost" "ghostCard" "h1"
      ⟨none, none, none, none⟩ 0).2.2.1 (by decide)

/-- C3 counterexample: invoking buyProperty with a player id unknown to
the state yields the typed outcome not_enough_money, not the not_found
the claim promises for every operation (PurchaseResult has no not_found
at all). -/
theorem unknown_id_not_found_counterexample :
    exBuyState.players.find? (fun p => p.id = "nobody") = none ∧
    buyProperty exBuyState "nobody" "h1" =
      { success := false, reason := some PurchaseReason.not_enough_money,
        newState := none } ∧
    ¬ (buyProperty exBuyState "nobody" "h1").reason = none := by
  decide

/-! ## Claim C5: payLandFee -/

/-- C5: payLandFee is a no-op when the property is unowned or owned by
the payer; otherwise, with fee = floor(currentIncome * 0.5), the payer
pays exactly min(fee, payer.money) (so this operation never drives the
payer's money negative) and the owner receives exactly the paid amount,
not the nominal fee. -/
theorem payLandFee_spec (state : GameState) (payerId propertyId : String)
    (payer : Player) (property : Property)
    (hp : state.players.find? (fun p => p.id = payerId) = some payer)
    (hr : state.properties.find? (fun p => p.id = propertyId) = some property) :
    (property.ownerId = none → payLandFee state payerId propertyId = state) ∧
    (property.ownerId = some payerId → payLandFee state payerId propertyId = state) ∧
    (∀ ownerId, property.ownerId = some ownerId → ownerId ≠ payerId →
      (payLandFee state payerId propertyId).players.map gMoney =
        state.players.map (fun p =>
          (p.id, if p.id = payerId then
                   p.money - min ((getLandFee property : Int)) payer.money
                 else if p.id = ownerId then
                   p.money + min ((getLandFee property : Int)) payer.money
                 else p.money)) ∧
      0 ≤ payer.money - min ((getLandFee property : Int)) payer.money) := by
  refine ⟨?_, ?_, ?_⟩
  · intro howner
    simp [payLandFee, hp, hr, howner]
  · intro howner
    simp [payLandFee, hp, hr, howner]
  · intro ownerId howner hne
    constructor
    · simp only [payLandFee, hp, hr, howner]
      rw [if_neg hne]
      simp only [recalcTotalAssets, List.map_map]
      refine map_fun_congr _ _ _ (fun p => ?_)
      by_cases hid : p.id = payerId
      · simp [Function.comp, gMoney, hid]
      · by_cases hid2 : p.id = ownerId <;> simp [Function.comp, gMoney, hid, hid2, hne]
    · have hfee : (0 : Int) ≤ (getLandFee property : Int) := Int.ofNat_nonneg _
      omega

/-- C5 witness: payer a with 10 money lands on the 1000/200 property of
owner b; the fee is 100 but only 10 changes hands, and the payer ends at
exactly 0. -/
theorem payLandFee_spec_witness :
    (payLandFee exOwnedState "a" "h1").players.map gMoney = [("a", 0), ("b", 10)] ∧
    0 ≤ (exPlayer "a" 10 [] BombeeType.none).money -
      min ((getLandFee (exProp "h1" "tokyo" 1000 200 (some "b") 0) : Int))
        (exPlayer "a" 10 [] BombeeType.none).money := by
  have h := (payLandFee_spec exOwnedState "a" "h1" (exPlayer "a" 10 [] BombeeType.none)
    (exProp "h1" "tokyo" 1000 200 (some "b") 0) (by decide) (by decide)).2.2 "b"
    (by decide) (by decide)
  refine ⟨?_, h.2⟩
  rw [h.1]
  decide

/-! ## Claim C7: monopolies and annual income -/

theorem map_congr_mem {α β : Type} {l : List α} {f g : α → β} (h : ∀ a ∈ l, f a = g a) :
    l.map f = l.map g := by
  induction l with
  | nil => rfl
  | cons a t ih =>
    simp only [List.map_cons, List.cons.injEq]
    exact ⟨h a (List.mem_cons_self a t), ih (fun b hb => h b (List.mem_cons_of_mem a hb))⟩

theorem mem_dedupKeysAux {x : String} :
    ∀ (l : List String) (seen : List String),
      x ∈ dedupKeysAux seen l ↔ x ∈ l ∧ x ∉ seen := by
  intro l
  induction l with
  | nil => intro seen; simp [dedupKeysAux]
  | cons c rest ih =>
    intro seen
    by_cases hc : c ∈ seen
    · rw [dedupKeysAux, if_pos hc, ih]
      constructor
      · rintro ⟨h1, h2⟩
        exact ⟨List.mem_cons_of_mem c h1, h2⟩
      · rintro ⟨h1, h2⟩
        rcases List.mem_cons.1 h1 with rfl | h1
        · exact absurd hc h2
        · exact ⟨h1, h2⟩
    · rw [dedupKeysAux, if_neg hc]
      constructor
      · intro hx
        rcases List.mem_cons.1 hx with rfl | hx
        · exact ⟨List.mem_cons_self _ _, hc⟩
        · rcases (ih (c :: seen)).1 hx with ⟨h1, h2⟩
          exact ⟨List.mem_cons_of_mem c h1,
            fun hmem => h2 (List.mem_cons_of_mem c hmem)⟩
      · rintro ⟨h1, h2⟩
        rcases List.mem_cons.1 h1 with rfl | h1
        · exact List.mem_cons_self _ _
        · by_cases hxc : x = c
          · exact hxc ▸ List.mem_cons_self _ _
          · exact List.mem_cons_of_mem c ((ih (c :: seen)).2
              ⟨h1, by simp [List.mem_cons, hxc, h2]⟩)

theorem nodup_dedupKeysAux :
    ∀ (l : List String) (seen : List String), (dedupKeysAux seen l).Nodup := by
  intro l
  induction l with
  | nil => intro seen; simp [dedupKeysAux]
  | cons c rest ih =>
    intro seen
    by_cases hc : c ∈ seen
    · rw [dedupKeysAux, if_pos hc]
      exact ih seen
    · rw [dedupKeysAux, if_neg hc]
      refine List.nodup_cons.2 ⟨?_, ih (c :: seen)⟩
      intro hmem
      exact ((mem_dedupKeysAux rest (c :: seen)).1 hmem).2 (List.mem_cons_self _ _)

theorem mem_dedupKeys {x : String} {l : List String} : x ∈ dedupKeys l ↔ x ∈ l := by
  rw [dedupKeys, mem_dedupKeysAux]
  simp

theorem nodup_dedupKeys (l : List String) : (dedupKeys l).Nodup :=
  nodup_dedupKeysAux l []

theorem sum_map_filter_split {α : Type} (l : List α) (q : α → Bool) (g : α → Nat) :
    ((l.filter q).map g).sum + ((l.filter (fun a => !(q a))).map g).sum =
      (l.map g).sum := by
  induction l with
  | nil => rfl
  | cons a t ih =>
    rcases hq : q a with _ | _ <;>
      simp [List.filter_cons, hq] <;> omega

theorem filter_of_disjoint {α : Type} (q r : α → Bool) (l : List α)
    (hdisj : ∀ a, q a = true → r a = false) :
    l.filter q = (l.filter (fun a => !(r a))).filter q := by
  induction l with
  | nil => rfl
  | cons a t ih =>
    rcases hq : q a with _ | _
    · rcases hr : r a with _ | _ <;> simp [List.filter_cons, hq, hr, ih]
    · have hr : r a = false := hdisj a hq
      simp [List.filter_cons, hq, hr, ih]

/-- Summing a grouped list city by city (over pairwise distinct keys
covering every element) gives the plain sum: the Map-grouping of
calcPlayerAnnualIncome loses nothing. -/
theorem sum_over_keys {α : Type} (key : α → String) (g : α → Nat) :
    ∀ (keys : List String) (l : List α), keys.Nodup → (∀ a ∈ l, key a ∈ keys) →
      (keys.map (fun k => ((l.filter (fun a => key a = k)).map g).sum)).sum =
        (l.map g).sum := by
  intro keys
  induction keys with
  | nil =>
    intro l _ hall
    have : l = [] := List.eq_nil_iff_forall_not_mem.2 (fun a ha => by simpa using hall a ha)
    simp [this]
  | cons c ks ih =>
    intro l hnd hall
    rw [List.map_cons, List.sum_cons]
    have hcons := List.nodup_cons.1 hnd
    have htail : (ks.map (fun k => ((l.filter (fun a => key a = k)).map g).sum)).sum
        = (ks.map (fun k =>
            (((l.filter (fun a => !(decide (key a = c)))).filter
              (fun a => key a = k)).map g).sum)).sum := by
      refine congrArg List.sum (map_congr_mem (fun k hk => ?_))
      rw [← filter_of_disjoint (fun a => decide (key a = k)) (fun a => decide (key a = c)) l
        (fun a ha => by
          simp only [decide_eq_true_eq] at ha
          simp only [decide_eq_false_iff_not]
          intro hc
          exact hcons.1 (by rw [← show k = c from ha ▸ hc]; exact hk))]
    rw [htail, ih (l.filter (fun a => !(decide (key a = c)))) hcons.2 ?cov]
    case cov =>
      intro a ha
      rcases List.mem_filter.1 ha with ⟨hmem, hnc⟩
      rcases List.mem_cons.1 (hall a hmem) with hc | hks
      · exact absurd (by simpa using hc) (by simpa using hnc)
      · exact hks
    exact sum_map_filter_split l (fun a => decide (key a = c)) g

/-- Pre-filtering by a predicate implied by the kept one is invisible. -/
theorem filter_filter_of_imp {α : Type} (q r : α → Bool) :
    ∀ (l : List α), (∀ a ∈ l, q a = true → r a = true) →
      (l.filter r).filter q = l.filter q := by
  intro l
  induction l with
  | nil => intro _; rfl
  | cons a t ih =>
    intro h
    have htail := fun b hb => h b (List.mem_cons_of_mem a hb)
    by_cases hr : r a = true
    · by_cases hq : q a = true <;> simp [List.filter_cons, hr, hq, ih htail]
    · have hq : ¬ q a = true := fun hq => hr (h a (List.mem_cons_self a t) hq)
      simp [List.filter_cons, hr, hq, ih htail]

/-- C7: hasMonopoly holds iff the city has at least one property and the
player owns all of them; calcPlayerAnnualIncome reports propertyIncome
equal to the plain sum of current incomes over owned properties, a
monopolyBonus equal to the sum of the owned income subtotals of exactly
the monopolized cities (and for a monopolized city that subtotal is the
entire city's income), and totalIncome = propertyIncome + monopolyBonus. -/
theorem monopoly_income_spec (properties : List Property) (cityId playerId : String) :
    (hasMonopoly properties cityId playerId = true ↔
      getPropertiesByCity properties cityId ≠ [] ∧
        ∀ p ∈ getPropertiesByCity properties cityId, p.ownerId = some playerId) ∧
    (calcPlayerAnnualIncome properties playerId).propertyIncome =
      ((getOwnedProperties properties playerId).map getCurrentIncome).sum ∧
    (calcPlayerAnnualIncome properties playerId).monopolyBonus =
      ((dedupKeys ((getOwnedProperties properties playerId).map (fun p => p.cityId))).map
        (fun c => if hasMonopoly properties c playerId = true then
          ownedCityIncome (getOwnedProperties properties playerId) c
        else 0)).sum ∧
    (∀ c, hasMonopoly properties c playerId = true →
      ownedCityIncome (getOwnedProperties properties playerId) c =
        ((getPropertiesByCity properties c).map getCurrentIncome).sum) ∧
    (calcPlayerAnnualIncome properties playerId).totalIncome =
      (calcPlayerAnnualIncome properties playerId).propertyIncome +
        (calcPlayerAnnualIncome properties playerId).monopolyBonus := by
  refine ⟨?_, ?_, ?_, ?_, ?_⟩
  · simp only [hasMonopoly, getPropertiesByCity, Bool.and_eq_true, List.all_eq_true,
      decide_eq_true_eq, gt_iff_lt, List.length_pos, ne_eq]
  · by_cases hempty : getOwnedProperties properties playerId = []
    · simp [calcPlayerAnnualIncome, hempty]
    · have hb : (getOwnedProperties properties playerId).isEmpty = false := by
        simp [List.isEmpty_eq_false, hempty]
      simp only [calcPlayerAnnualIncome, hb, Bool.false_eq_true, if_false, ownedCityIncome]
      exact sum_over_keys (fun p => p.cityId) getCurrentIncome _ _
        (nodup_dedupKeys _)
        (fun a ha => mem_dedupKeys.2 (List.mem_map_of_mem _ ha))
  · by_cases hempty : getOwnedProperties properties playerId = []
    · simp [calcPlayerAnnualIncome, hempty, dedupKeys, dedupKeysAux]
    · have hb : (getOwnedProperties properties playerId).isEmpty = false := by
        simp [List.isEmpty_eq_false, hempty]
      simp only [calcPlayerAnnualIncome, hb, Bool.false_eq_true, if_false]
      refine congrArg List.sum (map_congr_mem (fun c _ => ?_))
      rfl
  · intro c hmono
    simp only [hasMonopoly, Bool.and_eq_true, List.all_eq_true, decide_eq_true_eq] at hmono
    unfold ownedCityIncome getOwnedProperties getPropertiesByCity
    refine congrArg (fun l => (List.map getCurrentIncome l).sum) ?_
    refine filter_filter_of_imp _ _ properties (fun p hp hc => ?_)
    simp only [decide_eq_true_eq] at hc ⊢
    exact hmono.2 p (List.mem_filter.2 ⟨hp, by simpa using hc⟩)
  · by_cases hempty : getOwnedProperties properties playerId = []
    · simp [calcPlayerAnnualIncome, hempty]
    · have hb : (getOwnedProperties properties playerId).isEmpty = false := by
        simp [List.isEmpty_eq_false, hempty]
      simp [calcPlayerAnnualIncome, hb]

/-- Two 1000/200 and 2000/400 properties in one city, both owned by a. -/
def exMonopolyProps : List Property :=
  [exProp "h1" "tokyo" 1000 200 (some "a") 0, exProp "h2" "tokyo" 2000 400 (some "a") 0]

/-- C7 witness: the specification's example, incomes 200 and 400 in one
fully owned city give propertyIncome 600, monopolyBonus 600 and
totalIncome 1200. -/
theorem monopoly_income_spec_witness :
    hasMonopoly exMonopolyProps "tokyo" "a" = true ∧
    (calcPlayerAnnualIncome exMonopolyProps "a").propertyIncome = 600 ∧
    (calcPlayerAnnualIncome exMonopolyProps "a").monopolyBonus = 600 ∧
    (calcPlayerAnnualIncome exMonopolyProps "a").totalIncome = 1200 ∧
    ownedCityIncome (getOwnedProperties exMonopolyProps "a") "tokyo" =
      ((getPropertiesByCity exMonopolyProps "tokyo").map getCurrentIncome).sum := by
  refine ⟨by decide, by decide, by decide, by decide, ?_⟩
  exact (monopoly_income_spec exMonopolyProps "tokyo" "a").2.2.2.1 "tokyo" (by decide)

/-! ## Claim C9: debuff attachment -/

/-- The reduce of getLastPlacePlayer returns a member of minimal
totalAssets. -/
theorem foldl_min_spec (t : List Player) :
    ∀ h : Player,
      (t.foldl (fun worst p => if p.totalAssets < worst.totalAssets then p else worst) h)
        ∈ h :: t ∧
      ∀ q ∈ h :: t,
        (t.foldl (fun worst p =>
          if p.totalAssets < worst.totalAssets then p else worst) h).totalAssets ≤
          q.totalAssets := by
  induction t with
  | nil =>
    intro h
    refine ⟨List.mem_cons_self _ _, fun q hq => ?_⟩
    rcases List.mem_cons.1 hq with rfl | hq
    · exact le_refl _
    · exact absurd hq (List.not_mem_nil q)
  | cons a t ih =>
    intro h
    have step : (if a.totalAssets < h.totalAssets then a else h) = a ∨
        (if a.totalAssets < h.totalAssets then a else h) = h := by
      by_cases hlt : a.totalAssets < h.totalAssets <;> simp [hlt]
    have hle1 : (if a.totalAssets < h.totalAssets then a else h).totalAssets ≤
        h.totalAssets := by
      by_cases hlt : a.totalAssets < h.totalAssets <;> simp [hlt]
      omega
    have hle2 : (if a.totalAssets < h.totalAssets then a else h).totalAssets ≤
        a.totalAssets := by
      by_cases hlt : a.totalAssets < h.totalAssets <;> simp [hlt]
      omega
    rcases ih (if a.totalAssets < h.totalAssets then a else h) with ⟨hmem, hmin⟩
    constructor
    · rw [List.foldl_cons]
      rcases List.mem_cons.1 hmem with heq | hmem2
      · rcases step with hs | hs <;> rw [heq, hs]
        · exact List.mem_cons_of_mem h (List.mem_cons_self a t)
        · exact List.mem_cons_self h (a :: t)
      · exact List.mem_cons_of_mem h (List.mem_cons_of_mem a hmem2)
    · intro q hq
      rw [List.foldl_cons]
      have hminhead := hmin _ (List.mem_cons_self _ _)
      rcases List.mem_cons.1 hq with rfl | hq2
      · exact le_trans hminhead hle1
      · rcases List.mem_cons.1 hq2 with rfl | hq3
        · exact le_trans hminhead hle2
        · exact hmin q (List.mem_cons_of_mem _ hq3)

theorem getLastPlacePlayer_spec {l : List Player} {t : Player}
    (h : getLastPlacePlayer l = some t) :
    t ∈ l ∧ ∀ q ∈ l, t.totalAssets ≤ q.totalAssets := by
  cases l with
  | nil => exact absurd h (by simp [getLastPlacePlayer])
  | cons a rest =>
    have := foldl_min_spec rest a
    rw [getLastPlacePlayer, Option.some.injEq] at h
    rw [h] at this
    exact this

theorem getLastPlacePlayer_eq_none {l : List Player} :
    getLastPlacePlayer l = none ↔ l = [] := by
  cases l <;> simp [getLastPlacePlayer]

/-- C9: with nobody debuffed and 2+ players, attachBombeeToLastPlace
hands mini to the minimal-assets non-immune player (to the overall last
place if everyone is immune); with a single player, or when someone
already carries a debuff, the state is unchanged. -/
theorem attachBombee_spec (state : GameState) :
    (state.players.length < 2 → attachBombeeToLastPlace state = state) ∧
    ((∃ p ∈ state.players, ¬ p.bombeeType = BombeeType.none) →
      attachBombeeToLastPlace state = state) ∧
    (2 ≤ state.players.length → (∀ p ∈ state.players, p.bombeeType = BombeeType.none) →
      ∃ t,
        (attachBombeeToLastPlace state).players.map gBombee =
          state.players.map (fun p =>
            (p.id, if p.id = t.id then BombeeType.mini else p.bombeeType)) ∧
        (∀ e0 erest, state.players.filter (fun p => p.bombeeImmuneYears.getD 0 = 0) =
            e0 :: erest →
          t ∈ state.players.filter (fun p => p.bombeeImmuneYears.getD 0 = 0) ∧
          ∀ q ∈ state.players.filter (fun p => p.bombeeImmuneYears.getD 0 = 0),
            t.totalAssets ≤ q.totalAssets) ∧
        (state.players.filter (fun p => p.bombeeImmuneYears.getD 0 = 0) = [] →
          t ∈ state.players ∧ ∀ q ∈ state.players, t.totalAssets ≤ q.totalAssets)) := by
  refine ⟨?_, ?_, ?_⟩
  · intro hlen
    unfold attachBombeeToLastPlace
    by_cases hany : (state.players.any (fun p => ¬ p.bombeeType = BombeeType.none)) = true
    · rw [if_pos hany]
    · rw [if_neg hany, if_pos hlen]
  · intro hex
    rcases hex with ⟨p, hp, hbp⟩
    have hany : (state.players.any (fun p => ¬ p.bombeeType = BombeeType.none)) = true := by
      refine List.any_eq_true.2 ⟨p, hp, ?_⟩
      simpa using hbp
    unfold attachBombeeToLastPlace
    rw [if_pos hany]
  · intro hlen hall
    have hany : ¬ (state.players.any (fun p => ¬ p.bombeeType = BombeeType.none)) = true := by
      simp only [List.any_eq_true, not_exists]
      intro p
      simp only [not_and, decide_eq_true_eq]
      intro hp hbp
      exact hbp (hall p hp)
    rcases hgl : getLastPlacePlayer state.players with _ | lp
    · rw [getLastPlacePlayer_eq_none.1 hgl] at hlen
      simp at hlen
    rcases hgle : getLastPlacePlayer
        (state.players.filter (fun p => p.bombeeImmuneYears.getD 0 = 0)) with _ | el
    · -- everyone immune: the target is the nominal last place
      have hstep : attachBombeeToLastPlace state =
          { state with players := state.players.map (fun p =>
              if p.id = lp.id then
                { p with bombeeType := BombeeType.mini, bombeeElapsedTurns := 0 }
              else p) } := by
        unfold attachBombeeToLastPlace
        rw [if_neg hany, if_neg (by omega), hgl, hgle]
        rfl
      refine ⟨lp, ?_, ?_, ?_⟩
      · rw [hstep]
        show (state.players.map _).map gBombee = _
        rw [List.map_map]
        refine map_fun_congr _ _ _ (fun p => ?_)
        by_cases hid : p.id = lp.id <;> simp [Function.comp, gBombee, hid]
      · intro e0 erest hcontr
        rw [getLastPlacePlayer_eq_none.1 hgle] at hcontr
        exact absurd hcontr (by simp)
      · intro _
        exact getLastPlacePlayer_spec hgl
    · -- a non-immune player exists: the target is the non-immune minimum
      have hstep : attachBombeeToLastPlace state =
          { state with players := state.players.map (fun p =>
              if p.id = el.id then
                { p with bombeeType := BombeeType.mini, bombeeElapsedTurns := 0 }
              else p) } := by
        unfold attachBombeeToLastPlace
        rw [if_neg hany, if_neg (by omega), hgl, hgle]
        rfl
      refine ⟨el, ?_, ?_, ?_⟩
      · rw [hstep]
        show (state.players.map _).map gBombee = _
        rw [List.map_map]
        refine map_fun_congr _ _ _ (fun p => ?_)
        by_cases hid : p.id = el.id <;> simp [Function.comp, gBombee, hid]
      · intro f0 frest hf
        exact getLastPlacePlayer_spec hgle
      · intro hcontr
        rw [hcontr] at hgle
        simp [getLastPlacePlayer] at hgle

/-- One-player state for the no-attach case. -/
def exSolo : GameState := ⟨[exPlayer "alone" 5000 [] BombeeType.none], [], "osaka"⟩

/-- The specification's {50000, 1000} attach example. -/
def exAttachState : GameState :=
  ⟨[exPlayer "rich" 50000 [] BombeeType.none, exPlayer "poor" 1000 [] BombeeType.none],
   [], "osaka"⟩

/-- The specification's immune-last-place example. -/
def exImmuneState : GameState :=
  ⟨[{ exPlayer "poor" 1000 [] BombeeType.none with bombeeImmuneYears := some 2 },
    exPlayer "second" 2000 [] BombeeType.none,
    exPlayer "rich" 50000 [] BombeeType.none], [], "osaka"⟩

/-- C9 witness: a single player stays clean, the 1000-asset player of
{50000, 1000} receives mini, and an immune last place is skipped in
favour of the next-lowest non-immune player. -/
theorem attachBombee_spec_witness :
    attachBombeeToLastPlace exSolo = exSolo ∧
    (attachBombeeToLastPlace exAttachState).players.map gBombee =
      [("rich", BombeeType.none), ("poor", BombeeType.mini)] ∧
    (attachBombeeToLastPlace exImmuneState).players.map gBombee =
      [("poor", BombeeType.none), ("second", BombeeType.mini), ("rich", BombeeType.none)] := by
  refine ⟨(attachBombee_spec exSolo).1 (by decide), by decide, by decide⟩

/-! ## Claim C10: forced debuff sales keep upgradeLevel, ordinary sales reset it -/

theorem forall₂_map_self {α : Type} (r : α → α → Prop) (f : α → α) (l : List α)
    (h : ∀ a ∈ l, r a (f a)) : List.Forall₂ r l (l.map f) := by
  induction l with
  | nil => exact List.Forall₂.nil
  | cons a t ih =>
    exact List.Forall₂.cons (h a (List.mem_cons_self a t))
      (ih (fun b hb => h b (List.mem_cons_of_mem a hb)))

theorem forall₂_refl_of {α : Type} (r : α → α → Prop) (l : List α)
    (h : ∀ a ∈ l, r a a) : List.Forall₂ r l l := by
  have := forall₂_map_self r id l (fun a ha => h a ha)
  simpa using this

/-- Sales return a property to the market with its level reset: each
property either keeps both fields or ends unowned at level 0. -/
def SaleResets (l₁ l₂ : List Property) : Prop :=
  List.Forall₂ (fun p q =>
    (q.ownerId = p.ownerId ∧ q.upgradeLevel = p.upgradeLevel) ∨
    (q.ownerId = none ∧ q.upgradeLevel = 0)) l₁ l₂

/-- C10: the normal-tier and king-tier debuff forced sales clear
ownerId while leaving every upgradeLevel unchanged (so an unowned
property with upgradeLevel > 0 is reachable), whereas
sellPropertyForcibly, useSellProperty and useMonopolyBreak always reset
the upgradeLevel of properties they return to the market. -/
theorem forced_sale_upgradeLevel_frame (state : GameState) (target : Player)
    (o : BombeeOracle) (playerId propertyId : String) (card : Card)
    (tPropId tPlayId tCityId : Option String) :
    ((normalAction state target o).properties.map (fun p => (p.id, p.upgradeLevel)) =
      state.properties.map (fun p => (p.id, p.upgradeLevel))) ∧
    ((kingAction state target o).properties.map (fun p => (p.id, p.upgradeLevel)) =
      state.properties.map (fun p => (p.id, p.upgradeLevel))) ∧
    (∀ o0 orest, state.properties.filter (fun p => p.ownerId = some target.id) = o0 :: orest →
      o.sellCoin = true →
      (normalAction state target o).properties.map (fun p => (p.id, p.ownerId)) =
        state.properties.map (fun p =>
          (p.id, if p.id = ((o0 :: orest).getD (o.pickIdx % (o0 :: orest).length) o0).id
                 then none else p.ownerId))) ∧
    SaleResets state.properties (sellPropertyForcibly state playerId propertyId).properties ∧
    (∀ s2, (useSellProperty state playerId card tPropId tPlayId tCityId).newState = some s2 →
      SaleResets state.properties s2.properties) ∧
    (∀ s2, (useMonopolyBreak state playerId card).newState = some s2 →
      SaleResets state.properties s2.properties) := by
  refine ⟨?_, ?_, ?_, ?_, ?_, ?_⟩
  · unfold normalAction
    dsimp only
    split
    · split
      · rfl
      · rw [List.map_map]
        exact map_fun_congr _ _ _ (fun p => by
          simp only [Function.comp]
          split <;> rfl)
    · split
      · rfl
      · rfl
  · unfold kingAction
    rcases o.kingChoice
    · dsimp only
      split
      · unfold kingStealBig
        dsimp only
        split
        · rfl
        · rfl
      · rw [List.map_map]
        exact map_fun_congr _ _ _ (fun p => by
          simp only [Function.comp]
          split <;> rfl)
    · unfold kingStealBig
      dsimp only
      split
      · rfl
      · rfl
    · rfl
  · intro o0 orest hfilter hcoin
    unfold normalAction
    rw [hfilter]
    rw [if_pos (by simp [hcoin])]
    have hget : (o0 :: orest).get? (o.pickIdx % (o0 :: orest).length) =
        some ((o0 :: orest).getD (o.pickIdx % (o0 :: orest).length) o0) := by
      rw [List.getD_eq_getD_get?]
      rcases h : (o0 :: orest).get? (o.pickIdx % (o0 :: orest).length) with _ | v
      · exfalso
        rw [List.get?_eq_none] at h
        have : o.pickIdx % (o0 :: orest).length < (o0 :: orest).length :=
          Nat.mod_lt _ (by simp)
        omega
      · rfl
    rw [hget]
    rw [List.map_map]
    exact map_fun_congr _ _ _ (fun p => by
      simp only [Function.comp]
      split <;> rename_i hcond <;> simp [hcond])
  · unfold sellPropertyForcibly
    dsimp only
    split
    · split
      · exact forall₂_refl_of _ _ (fun a _ => Or.inl ⟨rfl, rfl⟩)
      · show SaleResets state.properties
          ((recalcTotalAssets _).properties)
        refine forall₂_map_self _ _ _ (fun a _ => ?_)
        by_cases h : a.id = propertyId <;> simp [h]
    · exact forall₂_refl_of _ _ (fun a _ => Or.inl ⟨rfl, rfl⟩)
  · intro s2 h
    unfold useSellProperty at h
    dsimp only at h
    split at h
    · split at h
      · simp at h
      · rw [Option.some.injEq] at h
        subst h
        refine forall₂_map_self _ _ _ (fun a _ => ?_)
        split <;> simp
    · split at h
      · split at h
        · simp at h
        · rw [Option.some.injEq] at h
          subst h
          refine forall₂_map_self _ _ _ (fun a _ => ?_)
          split <;> simp
      · split at h
        · simp at h
        · rw [Option.some.injEq] at h
          subst h
          refine forall₂_map_self _ _ _ (fun a _ => ?_)
          split <;> simp
  · intro s2 h
    unfold useMonopolyBreak at h
    dsimp only at h
    split at h
    · split at h
      · simp at h
      · rw [Option.some.injEq] at h
        subst h
        refine forall₂_map_self _ _ _ (fun a _ => ?_)
        split <;> simp
    · split at h
      · rw [Option.some.injEq] at h
        subst h
        refine forall₂_map_self _ _ _ (fun a _ => ?_)
        split <;> simp
      · simp at h

/-- State with an upgraded (level 2) property owned by the debuffed a. -/
def exUpgradedState : GameState :=
  ⟨[exPlayer "a" 1000 [] BombeeType.normal],
   [exProp "h1" "tokyo" 1000 200 (some "a") 2], "osaka"⟩

def exSellOracle : BombeeOracle :=
  ⟨true, 0, KingChoice.sell_all, false, 0, 0, 0⟩

/-- C10 witness: the normal-tier forced sale leaves the sold property
unowned at upgradeLevel 2 (an unowned upgraded property is reachable),
while sellPropertyForcibly on the same state resets the level to 0. -/
theorem forced_sale_upgradeLevel_frame_witness :
    ((normalAction exUpgradedState (exPlayer "a" 1000 [] BombeeType.normal)
        exSellOracle).properties.map (fun p => (p.id, p.upgradeLevel)) =
      exUpgradedState.properties.map (fun p => (p.id, p.upgradeLevel))) ∧
    (normalAction exUpgradedState (exPlayer "a" 1000 [] BombeeType.normal)
        exSellOracle).properties.map (fun p => (p.id, p.ownerId, p.upgradeLevel)) =
      [("h1", (none : Option String), 2)] ∧
    (sellPropertyForcibly exUpgradedState "a" "h1").properties.map
        (fun p => (p.id, p.ownerId, p.upgradeLevel)) =
      [("h1", (none : Option String), 0)] := by
  refine ⟨(forced_sale_upgradeLevel_frame exUpgradedState
    (exPlayer "a" 1000 [] BombeeType.normal) exSellOracle "a" "h1"
    ⟨"c", CardType.sell_property, ⟨some 100, none⟩⟩ none none none).1, by decide, by decide⟩

/-! ## Claim C6: pay_money never drives money negative -/

/-- find? across a map that rewrites exactly the matching entries. -/
theorem find?_id_map_ite (l : List Player) (pid : String) (u : Player → Player)
    (hu : ∀ p, (u p).id = p.id) :
    (l.map (fun p => if p.id = pid then u p else p)).find? (fun p => p.id = pid) =
      (l.find? (fun p => p.id = pid)).map u := by
  induction l with
  | nil => rfl
  | cons a t ih =>
    by_cases ha : a.id = pid
    · simp [List.find?_cons, ha, hu]
    · simp [List.find?_cons, ha, ih]

/-- find? across a map that leaves every matching entry untouched. -/
theorem find?_map_invariant (l : List Player) (q : Player → Bool) (f : Player → Player)
    (h1 : ∀ p, q (f p) = q p) (h2 : ∀ p, q p = true → f p = p) :
    (l.map f).find? q = l.find? q := by
  induction l with
  | nil => rfl
  | cons a t ih =>
    rcases ha : q a with _ | _
    · have : q (f a) = false := by rw [h1, ha]
      simp [List.find?_cons, ha, this, ih]
    · have : q (f a) = true := by rw [h1, ha]
      simp [List.find?_cons, ha, this, h2 a ha]

theorem payMoneyEachLoop_find? (v : Int) (pid : String) :
    ∀ (opps : List Player) (tp rem : Int) (acc : List Player),
      (∀ o ∈ opps, ¬ o.id = pid) →
      ((payMoneyEachLoop v opps tp rem acc).2).find? (fun p => p.id = pid) =
        acc.find? (fun p => p.id = pid) := by
  intro opps
  induction opps with
  | nil => intro tp rem acc _; rfl
  | cons o rest ih =>
    intro tp rem acc hne
    rw [payMoneyEachLoop]
    by_cases hr : rem ≤ 0
    · rw [if_pos hr]
    · rw [if_neg hr]
      rw [ih _ _ _ (fun b hb => hne b (List.mem_cons_of_mem o hb))]
      refine find?_map_invariant _ _ _ (fun p => ?_) (fun p hp => ?_)
      · by_cases hpo : p.id = o.id <;> simp [hpo]
      · have hpid : p.id = pid := by simpa using hp
        have : ¬ p.id = o.id := fun hpo =>
          hne o (List.mem_cons_self o rest) (by rw [← hpo, hpid])
        rw [if_neg this]

/-- The all_players_each loop pays out exactly
min(value * opponents, remaining) in total. -/
theorem payMoneyEachLoop_total (v : Int) (hv : 0 ≤ v) :
    ∀ (opps : List Player) (tp rem : Int) (acc : List Player), 0 ≤ rem →
      (payMoneyEachLoop v opps tp rem acc).1 =
        tp + min (v * (opps.length : Int)) rem := by
  intro opps
  induction opps with
  | nil =>
    intro tp rem acc hrem
    rw [payMoneyEachLoop]
    simp only [List.length_nil, Nat.cast_zero, mul_zero]
    rw [min_eq_left hrem]
    ring
  | cons o rest ih =>
    intro tp rem acc hrem
    rw [payMoneyEachLoop]
    have hlen : ((o :: rest).length : Int) = (rest.length : Int) + 1 := by
      push_cast [List.length_cons]
      ring
    have hk : (0 : Int) ≤ (rest.length : Int) := Int.ofNat_nonneg _
    have hvk : (0 : Int) ≤ v * (rest.length : Int) := mul_nonneg hv hk
    by_cases hr : rem ≤ 0
    · rw [if_pos hr, hlen, mul_add, mul_one]
      set w := v * (rest.length : Int) with hw
      omega
    · rw [if_neg hr]
      rw [ih _ _ _ (by omega)]
      rw [hlen, mul_add, mul_one]
      set w := v * (rest.length : Int) with hw
      omega

/-- C6: for every pay_money variant, with a non-negative balance the
amount actually deducted is min(requested, money), so the payer's money
stays non-negative.  The per-opponent variant needs a non-negative card
value; the requested total there is value times the opponent count. -/
theorem payMoney_caps_at_money (state : GameState) (playerId : String) (card : Card)
    (player : Player)
    (hp : state.players.find? (fun p => p.id = playerId) = some player)
    (hmoney : 0 ≤ player.money) :
    (card.effect.targetType = some "property_value_percent" →
      ∃ s2, usePayMoney state playerId card =
          { success := true, reason := none, newState := some s2 } ∧
        s2.players.find? (fun p => p.id = playerId) = some { player with
          money := player.money - min
            (Int.fdiv ((propertyValue state.properties playerId : Int) *
              (card.effect.value.getD 1000)) 100) player.money,
          totalAssets := player.totalAssets - min
            (Int.fdiv ((propertyValue state.properties playerId : Int) *
              (card.effect.value.getD 1000)) 100) player.money } ∧
        0 ≤ player.money - min
          (Int.fdiv ((propertyValue state.properties playerId : Int) *
            (card.effect.value.getD 1000)) 100) player.money) ∧
    (card.effect.targetType = some "total_assets_percent" →
      ∃ s2, usePayMoney state playerId card =
          { success := true, reason := none, newState := some s2 } ∧
        s2.players.find? (fun p => p.id = playerId) = some { player with
          money := player.money - min
            (Int.fdiv (player.totalAssets * (card.effect.value.getD 1000)) 100) player.money,
          totalAssets := player.totalAssets - min
            (Int.fdiv (player.totalAssets * (card.effect.value.getD 1000)) 100) player.money } ∧
        0 ≤ player.money - min
          (Int.fdiv (player.totalAssets * (card.effect.value.getD 1000)) 100) player.money) ∧
    (card.effect.targetType = some "all_players_each" → 0 ≤ card.effect.value.getD 1000 →
      ∃ s2, usePayMoney state playerId card =
          { success := true, reason := none, newState := some s2 } ∧
        s2.players.find? (fun p => p.id = playerId) = some { player with
          money := player.money - min
            ((card.effect.value.getD 1000) *
              ((state.players.filter (fun p => ¬ p.id = playerId)).length : Int)) player.money,
          totalAssets := player.totalAssets - min
            ((card.effect.value.getD 1000) *
              ((state.players.filter (fun p => ¬ p.id = playerId)).length : Int)) player.money } ∧
        0 ≤ player.money - min
          ((card.effect.value.getD 1000) *
            ((state.players.filter (fun p => ¬ p.id = playerId)).length : Int)) player.money) ∧
    (¬ card.effect.targetType = some "property_value_percent" →
     ¬ card.effect.targetType = some "total_assets_percent" →
     ¬ card.effect.targetType = some "all_players_each" →
      ∃ s2, usePayMoney state playerId card =
          { success := true, reason := none, newState := some s2 } ∧
        s2.players.find? (fun p => p.id = playerId) = some { player with
          money := player.money - min (card.effect.value.getD 1000) player.money,
          totalAssets := player.totalAssets - min (card.effect.value.getD 1000) player.money } ∧
        0 ≤ player.money - min (card.effect.value.getD 1000) player.money) := by
  refine ⟨?_, ?_, ?_, ?_⟩
  · intro htt
    refine ⟨_, by rw [usePayMoney, hp]; dsimp only; rw [if_pos htt], ?_, by omega⟩
    rw [find?_id_map_ite state.players playerId (fun p => { p with
      money := p.money - min
        (Int.fdiv ((propertyValue state.properties playerId : Int) *
          (card.effect.value.getD 1000)) 100) player.money,
      totalAssets := p.totalAssets - min
        (Int.fdiv ((propertyValue state.properties playerId : Int) *
          (card.effect.value.getD 1000)) 100) player.money }) (fun p => rfl), hp]
    rfl
  · intro htt
    have hne1 : ¬ card.effect.targetType = some "property_value_percent" := by
      rw [htt]; simp
    refine ⟨_, by rw [usePayMoney, hp]; dsimp only; rw [if_neg hne1, if_pos htt],
      ?_, by omega⟩
    rw [find?_id_map_ite state.players playerId (fun p => { p with
      money := p.money - min
        (Int.fdiv (player.totalAssets * (card.effect.value.getD 1000)) 100) player.money,
      totalAssets := p.totalAssets - min
        (Int.fdiv (player.totalAssets * (card.effect.value.getD 1000)) 100) player.money }) (fun p => rfl), hp]
    rfl
  · intro htt hv
    have hne1 : ¬ card.effect.targetType = some "property_value_percent" := by
      rw [htt]; simp
    have hne2 : ¬ card.effect.targetType = some "total_assets_percent" := by
      rw [htt]; simp
    have htot : (payMoneyEachLoop (card.effect.value.getD 1000)
        (state.players.filter (fun p => ¬ p.id = playerId)) 0 player.money state.players).1 =
        min ((card.effect.value.getD 1000) *
          ((state.players.filter (fun p => ¬ p.id = playerId)).length : Int)) player.money := by
      rw [payMoneyEachLoop_total _ hv _ _ _ _ hmoney]
      ring
    refine ⟨_, by
      rw [usePayMoney, hp]
      dsimp only
      rw [if_neg hne1, if_neg hne2, if_pos htt], ?_, by omega⟩
    rw [find?_id_map_ite (payMoneyEachLoop (card.effect.value.getD 1000)
        (state.players.filter (fun p => ¬ p.id = playerId)) 0 player.money state.players).2 playerId (fun p => { p with
      money := p.money - (payMoneyEachLoop (card.effect.value.getD 1000)
        (state.players.filter (fun p => ¬ p.id = playerId)) 0 player.money state.players).1,
      totalAssets := p.totalAssets - (payMoneyEachLoop (card.effect.value.getD 1000)
        (state.players.filter (fun p => ¬ p.id = playerId)) 0 player.money state.players).1 }) (fun p => rfl)]
    rw [payMoneyEachLoop_find? _ _ _ _ _ _ (fun b hb => by
      have := List.mem_filter.1 hb
      simpa using this.2)]
    rw [hp, htot]
    rfl
  · intro hne1 hne2 hne3
    refine ⟨_, by
      rw [usePayMoney, hp]
      dsimp only
      rw [if_neg hne1, if_neg hne2, if_neg hne3], ?_, by omega⟩
    rw [find?_id_map_ite state.players playerId (fun p => { p with
      money := p.money - min (card.effect.value.getD 1000) player.money,
      totalAssets := p.totalAssets - min (card.effect.value.getD 1000) player.money }) (fun p => rfl), hp]
    rfl

/-- C6 witness: a flat pay card requesting 700 from a player holding
300 deducts exactly min(700, 300) = 300 and ends at 0, not below. -/
theorem payMoney_caps_at_money_witness :
    (∃ s2, usePayMoney ⟨[exPlayer "a" 300 [] BombeeType.none], [], "osaka"⟩ "a"
        ⟨"pay1", CardType.pay_money, ⟨some 700, none⟩⟩ =
        { success := true, reason := none, newState := some s2 } ∧
      s2.players.find? (fun p => p.id = "a") =
        some { exPlayer "a" 300 [] BombeeType.none with
          money := (exPlayer "a" 300 [] BombeeType.none).money - min 700 300,
          totalAssets := (exPlayer "a" 300 [] BombeeType.none).totalAssets - min 700 300 } ∧
      0 ≤ (exPlayer "a" 300 [] BombeeType.none).money - min 700 300) := by
  exact (payMoney_caps_at_money ⟨[exPlayer "a" 300 [] BombeeType.none], [], "osaka"⟩ "a"
    ⟨"pay1", CardType.pay_money, ⟨some 700, none⟩⟩ (exPlayer "a" 300 [] BombeeType.none)
    (by decide) (by decide)).2.2.2 (by decide) (by decide) (by decide)

/-! ## Claim C4: useCard failure modes and hand removal -/

theorem ghand_recalc (s : GameState) :
    (recalcTotalAssets s).players.map gHand = s.players.map gHand :=
  map_proj_eq gHand _ _ (fun _ => rfl)

theorem ghand_moveToDest (s : GameState) (playerId : String) (card : Card) (s2 : GameState)
    (h : (useMoveToDest s playerId card).newState = some s2) :
    s2.players.map gHand = s.players.map gHand := by
  unfold useMoveToDest at h
  dsimp only at h
  split at h <;>
  · rw [Option.some.injEq] at h
    subst h
    exact map_proj_eq gHand _ _ (fun p => by split <;> rfl)

theorem ghand_getMoneyFold (v : Int) (opps : List Player) :
    ∀ init : Int × List Player,
      ((opps.foldl (getMoneyEachStep v) init).2).map gHand = init.2.map gHand := by
  induction opps with
  | nil => intro init; rfl
  | cons o rest ih =>
    intro init
    rw [List.foldl_cons, ih]
    exact map_proj_eq gHand _ _ (fun p => by split <;> rfl)

theorem ghand_getMoney (s : GameState) (playerId : String) (card : Card) (s2 : GameState)
    (h : (useGetMoney s playerId card).newState = some s2) :
    s2.players.map gHand = s.players.map gHand := by
  unfold useGetMoney at h
  dsimp only at h
  split at h
  · rw [Option.some.injEq] at h
    subst h
    exact map_proj_eq gHand _ _ (fun p => by split <;> rfl)
  split at h <;>
  · rw [Option.some.injEq] at h
    subst h
    first
    | exact map_proj_eq gHand _ _ (fun p => by split <;> rfl)
    | · show ((_ : List Player).map _).map gHand = _
        rw [map_proj_eq gHand _ _ (fun p => by split <;> rfl), ghand_getMoneyFold]

theorem ghand_payLoop (v : Int) :
    ∀ (opps : List Player) (tp rem : Int) (acc : List Player),
      ((payMoneyEachLoop v opps tp rem acc).2).map gHand = acc.map gHand := by
  intro opps
  induction opps with
  | nil => intro tp rem acc; rfl
  | cons o rest ih =>
    intro tp rem acc
    rw [payMoneyEachLoop]
    split
    · rfl
    · rw [ih]
      exact map_proj_eq gHand _ _ (fun p => by split <;> rfl)

theorem ghand_payMoney (s : GameState) (playerId : String) (card : Card) (s2 : GameState)
    (h : (usePayMoney s playerId card).newState = some s2) :
    s2.players.map gHand = s.players.map gHand := by
  unfold usePayMoney at h
  split at h
  · simp at h
  dsimp only at h
  split at h
  · rw [Option.some.injEq] at h
    subst h
    exact map_proj_eq gHand _ _ (fun p => by split <;> rfl)
  split at h
  · rw [Option.some.injEq] at h
    subst h
    exact map_proj_eq gHand _ _ (fun p => by split <;> rfl)
  split at h <;>
  · rw [Option.some.injEq] at h
    subst h
    first
    | exact map_proj_eq gHand _ _ (fun p => by split <;> rfl)
    | · show ((_ : List Player).map _).map gHand = _
        rw [map_proj_eq gHand _ _ (fun p => by split <;> rfl), ghand_payLoop]

theorem ghand_bombeeTransfer (s : GameState) (fromId toId : String) (s2 : GameState)
    (h : (useBombeeTransfer s fromId toId).newState = some s2) :
    s2.players.map gHand = s.players.map gHand := by
  unfold useBombeeTransfer at h
  split at h
  · split at h
    · simp at h
    · rw [Option.some.injEq] at h
      subst h
      exact map_proj_eq gHand _ _ (fun p => by split <;> (try split) <;> rfl)
  · simp at h

theorem ghand_bombeeTransferL2S (s : GameState) (s2 : GameState)
    (h : (useBombeeTransferLastToSecond s).newState = some s2) :
    s2.players.map gHand = s.players.map gHand := by
  unfold useBombeeTransferLastToSecond at h
  dsimp only at h
  split at h
  · simp at h
  · split at h
    · simp at h
    · rw [Option.some.injEq] at h
      subst h
      exact map_proj_eq gHand _ _ (fun p => by split <;> (try split) <;> rfl)

theorem ghand_moveToCity (s : GameState) (playerId : String) (card : Card) (s2 : GameState)
    (h : (useMoveToCity s playerId card).newState = some s2) :
    s2.players.map gHand = s.players.map gHand := by
  unfold useMoveToCity at h
  rw [Option.some.injEq] at h
  subst h
  exact map_proj_eq gHand _ _ (fun p => by split <;> rfl)

theorem ghand_bombeeAway (s : GameState) (playerId : String) (card : Card) (s2 : GameState)
    (h : (useBombeeAway s playerId card).newState = some s2) :
    s2.players.map gHand = s.players.map gHand := by
  unfold useBombeeAway at h
  split at h
  · rw [Option.some.injEq] at h
    subst h
    rfl
  · split at h
    · rw [Option.some.injEq] at h
      subst h
      rfl
    · rw [Option.some.injEq] at h
      subst h
      exact map_proj_eq gHand _ _ (fun p => by split <;> rfl)

theorem ghand_sellProperty (s : GameState) (playerId : String) (card : Card)
    (tPropId tPlayId tCityId : Option String) (s2 : GameState)
    (h : (useSellProperty s playerId card tPropId tPlayId tCityId).newState = some s2) :
    s2.players.map gHand = s.players.map gHand := by
  unfold useSellProperty at h
  dsimp only at h
  split at h
  · split at h
    · simp at h
    · rw [Option.some.injEq] at h
      subst h
      rw [ghand_recalc]
      exact map_proj_eq gHand _ _ (fun p => by split <;> rfl)
  · split at h
    · split at h
      · simp at h
      · rw [Option.some.injEq] at h
        subst h
        rw [ghand_recalc]
        exact map_proj_eq gHand _ _ (fun p => by split <;> rfl)
    · split at h
      · simp at h
      · rw [Option.some.injEq] at h
        subst h
        rw [ghand_recalc]
        exact map_proj_eq gHand _ _ (fun p => by split <;> rfl)

theorem ghand_stealProperty (s : GameState) (playerId : String) (card : Card)
    (tCityId : Option String) (s2 : GameState)
    (h : (useStealProperty s playerId card tCityId).newState = some s2) :
    s2.players.map gHand = s.players.map gHand := by
  unfold useStealProperty at h
  dsimp only at h
  split at h
  · split at h
    · simp at h
    · rw [Option.some.injEq] at h
      subst h
      rw [ghand_recalc]
  · split at h
    · simp at h
    · split at h
      · simp at h
      · rw [Option.some.injEq] at h
        subst h
        rw [ghand_recalc]

theorem ghand_monopolyBreak (s : GameState) (playerId : String) (card : Card) (s2 : GameState)
    (h : (useMonopolyBreak s playerId card).newState = some s2) :
    s2.players.map gHand = s.players.map gHand := by
  unfold useMonopolyBreak at h
  dsimp only at h
  split at h
  · split at h
    · simp at h
    · rw [Option.some.injEq] at h
      subst h
      rw [ghand_recalc]
      exact map_proj_eq gHand _ _ (fun p => by split <;> rfl)
  · split at h
    · rw [Option.some.injEq] at h
      subst h
      rw [ghand_recalc]
      exact map_proj_eq gHand _ _ (fun p => by split <;> rfl)
    · simp at h

theorem ghand_buyProperty (s : GameState) (playerId : String) (card : Card)
    (tCityId : Option String) (s2 : GameState)
    (h : (useBuyProperty s playerId card tCityId).newState = some s2) :
    s2.players.map gHand = s.players.map gHand := by
  unfold useBuyProperty at h
  split at h
  · simp at h
  dsimp only at h
  split at h
  · split at h
    · simp at h
    · rw [Option.some.injEq] at h
      subst h
      rw [ghand_recalc]
  · split at h
    · split at h
      · simp at h
      · rw [Option.some.injEq] at h
        subst h
        rw [ghand_recalc]
        exact map_proj_eq gHand _ _ (fun p => by split <;> rfl)
    · split at h
      · split at h
        · simp at h
        · split at h
          · simp at h
          · rw [Option.some.injEq] at h
            subst h
            rw [ghand_recalc]
            exact map_proj_eq gHand _ _ (fun p => by split <;> rfl)
      · simp at h

theorem ghand_doubleIncome (s : GameState) (playerId : String) (card : Card) (s2 : GameState)
    (h : (useDoubleIncome s playerId card).newState = some s2) :
    s2.players.map gHand = s.players.map gHand := by
  unfold useDoubleIncome at h
  dsimp only at h
  split at h <;>
  · rw [Option.some.injEq] at h
    subst h
    exact map_proj_eq gHand _ _ (fun p => by split <;> rfl)

theorem removeFromHand_not_mem (state : GameState) (playerId cardId : String) :
    ∀ q ∈ (removeFromHand state playerId cardId).players, q.id = playerId →
      cardId ∉ q.hand := by
  intro q hq hid
  unfold removeFromHand at hq
  rcases List.mem_map.1 hq with ⟨p, hp, rfl⟩
  by_cases h : p.id = playerId
  · simp [h]
  · rw [if_neg h] at hid
    exact absurd hid h

/-- C4 (amended): useCard fails not_found for an unknown player or card
id and not_owner when the (known) card is not in the hand, both without
a new state; on success the card is removed from the hand before the
effect runs, and for every card type except card_steal the resulting
hand no longer contains the used card id (a card_steal can re-add an
identically-titled card stolen from the target). -/
theorem useCard_spec (allCards : List Card) (state : GameState)
    (playerId cardId : String) (options : UseCardOptions) (pickIdx : Nat) :
    ((state.players.find? (fun p => p.id = playerId) = none ∨
        getCardById allCards cardId = none) →
      useCard allCards state playerId cardId options pickIdx =
        { success := false, reason := some CardFailReason.not_found, newState := none }) ∧
    (∀ player card, state.players.find? (fun p => p.id = playerId) = some player →
      getCardById allCards cardId = some card → cardId ∉ player.hand →
      useCard allCards state playerId cardId options pickIdx =
        { success := false, reason := some CardFailReason.not_owner, newState := none }) ∧
    (∀ card, getCardById allCards cardId = some card → ¬ card.type = CardType.card_steal →
      ∀ s2, (useCard allCards state playerId cardId options pickIdx).newState = some s2 →
        s2.players.map gHand = (removeFromHand state playerId cardId).players.map gHand) ∧
    (∀ card, getCardById allCards cardId = some card → ¬ card.type = CardType.card_steal →
      ∀ s2, (useCard allCards state playerId cardId options pickIdx).newState = some s2 →
        ∀ q ∈ s2.players, q.id = playerId → cardId ∉ q.hand) := by
  have h3 : ∀ card, getCardById allCards cardId = some card →
      ¬ card.type = CardType.card_steal →
      ∀ s2, (useCard allCards state playerId cardId options pickIdx).newState = some s2 →
        s2.players.map gHand = (removeFromHand state playerId cardId).players.map gHand := by
    intro card hc hnsteal s2 h
    rcases hp : state.players.find? (fun p => p.id = playerId) with _ | player
    · simp only [useCard, hp, hc] at h
      simp at h
    by_cases hmem : cardId ∈ player.hand
    · simp only [useCard, hp, hc] at h
      rw [if_neg (by simp [hmem])] at h
      split at h
      · exact ghand_moveToDest _ _ _ _ h
      · exact ghand_getMoney _ _ _ _ h
      · exact ghand_payMoney _ _ _ _ h
      · split at h
        · exact ghand_bombeeTransferL2S _ _ h
        · split at h
          · simp at h
          · exact ghand_bombeeTransfer _ _ _ _ h
      · rename_i heq
        exact absurd heq hnsteal
      · exact ghand_moveToCity _ _ _ _ h
      · exact ghand_bombeeAway _ _ _ _ h
      · exact ghand_sellProperty _ _ _ _ _ _ _ h
      · exact ghand_stealProperty _ _ _ _ _ h
      · exact ghand_monopolyBreak _ _ _ _ h
      · exact ghand_buyProperty _ _ _ _ _ h
      · exact ghand_doubleIncome _ _ _ _ h
      · rw [Option.some.injEq] at h
        rw [← h]
      · rw [Option.some.injEq] at h
        rw [← h]
    · simp only [useCard, hp, hc] at h
      rw [if_pos (by simp [hmem])] at h
      simp at h
  refine ⟨?_, ?_, h3, ?_⟩
  · intro h
    rcases h with h | h
    · rcases hc : getCardById allCards cardId with _ | c <;> simp [useCard, h, hc]
    · rcases hp : state.players.find? (fun p => p.id = playerId) with _ | p <;>
        simp [useCard, h, hp]
  · intro player card hp hc hmem
    simp only [useCard, hp, hc]
    rw [if_pos (by simp [hmem])]
  · intro card hc hnsteal s2 h q hq hid
    have hsim := h3 card hc hnsteal s2 h
    rcases exists_of_mem_map_proj hsim hq with ⟨p, hp, hgp⟩
    have hpid : p.id = q.id := congrArg Prod.fst hgp
    have hphand : p.hand = q.hand := congrArg Prod.snd hgp
    rw [← hphand]
    exact removeFromHand_not_mem state playerId cardId p hp (hpid.trans hid)

def exCatalog : List Card :=
  [⟨"c1", CardType.get_money, ⟨some 100, none⟩⟩]

def exHandState : GameState :=
  ⟨[exPlayer "a" 1000 [] BombeeType.none], [], "osaka"⟩

def exHandState2 : GameState :=
  ⟨[exPlayer "a" 1000 ["c1"] BombeeType.none], [], "osaka"⟩

/-- C4 witness: a known card not in hand fails not_owner; playing the
card from hand removes it, leaving a hand without the used id. -/
theorem useCard_spec_witness :
    useCard exCatalog exHandState "a" "c1" ⟨none, none, none, none⟩ 0 =
      { success := false, reason := some CardFailReason.not_owner, newState := none } ∧
    (useCard exCatalog exHandState2 "a" "c1" ⟨none, none, none, none⟩ 0).newState.map
      (fun s => s.players.map gHand) = some [("a", ([] : List String))] := by
  refine ⟨(useCard_spec exCatalog exHandState "a" "c1" ⟨none, none, none, none⟩ 0).2.1
    (exPlayer "a" 1000 [] BombeeType.none) ⟨"c1", CardType.get_money, ⟨some 100, none⟩⟩
    (by decide) (by decide) (by decide), by decide⟩

def exStealCard : Card := ⟨"steal1", CardType.card_steal, ⟨some 1, some "selected_card"⟩⟩

def exStealState : GameState :=
  ⟨[exPlayer "a" 0 ["steal1"] BombeeType.none, exPlayer "b" 0 ["steal1"] BombeeType.none],
   [], "osaka"⟩

/-- C4 counterexample: two failures of the claim as stated.  (1) With a
card id unknown to the catalog (and absent from the hand) useCard
returns not_found, not the promised not_owner.  (2) Both players hold a
copy of the card_steal card steal1; a plays it targeting b's copy, the
use succeeds, and a's resulting hand still contains the used id. -/
theorem useCard_spec_counterexample :
    ("ghost" ∉ (exPlayer "a" 1000 [] BombeeType.none).hand ∧
      useCard exCatalog exHandState "a" "ghost" ⟨none, none, none, none⟩ 0 =
        { success := false, reason := some CardFailReason.not_found, newState := none } ∧
      ¬ (useCard exCatalog exHandState "a" "ghost" ⟨none, none, none, none⟩ 0).reason =
        some CardFailReason.not_owner) ∧
    ((useCard [exStealCard] exStealState "a" "steal1"
        ⟨some "b", none, none, some "steal1"⟩ 0).success = true ∧
      (useCard [exStealCard] exStealState "a" "steal1"
        ⟨some "b", none, none, some "steal1"⟩ 0).newState.map
        (fun s => s.players.map gHand) =
        some [("a", ["steal1"]), ("b", ([] : List String))]) := by
  decide

/-! ## Claim C8: at most one debuff carrier -/

theorem length_filter_mono {α : Type} (l : List α) (q r : α → Bool)
    (h : ∀ p ∈ l, q p = true → r p = true) :
    (l.filter q).length ≤ (l.filter r).length := by
  induction l with
  | nil => exact le_refl 0
  | cons a t ih =>
    have htail := ih (fun p hp => h p (List.mem_cons_of_mem a hp))
    rcases hq : q a with _ | _
    · rcases hr : r a with _ | _ <;>
        simp [List.filter_cons, hq, hr] <;> omega
    · have hr := h a (List.mem_cons_self a t) hq
      simp [List.filter_cons, hq, hr]
      omega

theorem bombeeCount_map_eq_filter (l : List Player) (f : Player → Player) :
    bombeeCount (l.map f) =
      (l.filter (fun p => ¬ (f p).bombeeType = BombeeType.none)).length := by
  induction l with
  | nil => rfl
  | cons a t ih =>
    by_cases hq : (f a).bombeeType = BombeeType.none <;>
      simp [bombeeCount, List.filter_cons, hq] at ih ⊢ <;> omega

/-- Master bound: if the rewritten players can only carry a debuff at
one fixed id, the rewritten list has at most one carrier. -/
theorem bombeeCount_le_one_of_pointwise (l : List Player)
    (hnd : (l.map (fun p => p.id)).Nodup) (f : Player → Player) (b : String)
    (h : ∀ p ∈ l, ¬ (f p).bombeeType = BombeeType.none → p.id = b) :
    bombeeCount (l.map f) ≤ 1 := by
  rw [bombeeCount_map_eq_filter]
  refine le_trans (length_filter_mono l _ _ (fun p hp hq => ?_))
    (length_filter_le_one_of_nodup l (fun p => p.id) hnd b)
  simp only [decide_eq_true_eq] at hq ⊢
  exact h p hp hq

theorem bombeeCount_le_map (l : List Player) (f : Player → Player)
    (h : ∀ p, ¬ (f p).bombeeType = BombeeType.none → ¬ p.bombeeType = BombeeType.none) :
    bombeeCount (l.map f) ≤ bombeeCount l := by
  rw [bombeeCount_map_eq_filter]
  refine length_filter_mono l _ _ (fun p _ hq => ?_)
  simp only [decide_eq_true_eq] at hq ⊢
  exact h p hq

theorem bombeeCount_eq_of_gBombee (l₁ l₂ : List Player)
    (hsim : l₂.map gBombee = l₁.map gBombee) : bombeeCount l₂ = bombeeCount l₁ := by
  have key : ∀ l : List Player, bombeeCount l =
      ((l.map gBombee).filter (fun x => ¬ x.2 = BombeeType.none)).length := by
    intro l
    induction l with
    | nil => rfl
    | cons a t ih =>
      by_cases hq : a.bombeeType = BombeeType.none <;>
        simp [bombeeCount, gBombee, List.filter_cons, hq] at ih ⊢ <;> omega
  rw [key, key, hsim]

theorem ids_eq_of_gBombee (l₁ l₂ : List Player)
    (hsim : l₂.map gBombee = l₁.map gBombee) :
    l₂.map (fun p => p.id) = l₁.map (fun p => p.id) := by
  have : (l₂.map gBombee).map Prod.fst = (l₁.map gBombee).map Prod.fst := by rw [hsim]
  simpa [List.map_map, Function.comp, gBombee] using this

/-- In a list with at most one carrier, every carrier is the known one. -/
theorem only_carrier {l : List Player} (hcount : bombeeCount l ≤ 1) {bp : Player}
    (hbp : bp ∈ l) (hb : ¬ bp.bombeeType = BombeeType.none) :
    ∀ p ∈ l, ¬ p.bombeeType = BombeeType.none → p = bp := by
  intro p hp hpb
  have hpmem : p ∈ l.filter (fun p => ¬ p.bombeeType = BombeeType.none) :=
    List.mem_filter.2 ⟨hp, by simpa using hpb⟩
  have hbpmem : bp ∈ l.filter (fun p => ¬ p.bombeeType = BombeeType.none) :=
    List.mem_filter.2 ⟨hbp, by simpa using hb⟩
  rcases hflt : l.filter (fun p => ¬ p.bombeeType = BombeeType.none) with _ | ⟨x, rest⟩
  · rw [hflt] at hpmem
    exact absurd hpmem (List.not_mem_nil p)
  · have hlen : (x :: rest).length ≤ 1 := by
      rw [← hflt]
      exact hcount
    have hrest : rest = [] := by
      rcases rest with _ | ⟨y, more⟩
      · rfl
      · simp at hlen
    subst hrest
    rw [hflt] at hpmem hbpmem
    have h1 := List.mem_singleton.1 hpmem
    have h2 := List.mem_singleton.1 hbpmem
    rw [h1, h2]

/-- The mini/normal/king money effects never touch bombeeType. -/
theorem gBombee_miniAction (s : GameState) (t : Player) (amt : Int) :
    (miniAction s t amt).players.map gBombee = s.players.map gBombee := by
  unfold miniAction
  dsimp only
  split
  · rfl
  · exact map_proj_eq gBombee _ _ (fun p => by split <;> rfl)

theorem gBombee_normalAction (s : GameState) (t : Player) (o : BombeeOracle) :
    (normalAction s t o).players.map gBombee = s.players.map gBombee := by
  unfold normalAction
  dsimp only
  split
  · split
    · rfl
    · exact map_proj_eq gBombee _ _ (fun p => by split <;> rfl)
  · split
    · rfl
    · exact map_proj_eq gBombee _ _ (fun p => by split <;> rfl)

theorem gBombee_kingStealBig (s : GameState) (t : Player) (amt : Int) :
    (kingStealBig s t amt).players.map gBombee = s.players.map gBombee := by
  unfold kingStealBig
  dsimp only
  split
  · rfl
  · exact map_proj_eq gBombee _ _ (fun p => by split <;> rfl)

theorem gBombee_kingAction (s : GameState) (t : Player) (o : BombeeOracle) :
    (kingAction s t o).players.map gBombee = s.players.map gBombee := by
  unfold kingAction
  rcases o.kingChoice
  · dsimp only
    split
    · exact gBombee_kingStealBig _ _ _
    · exact map_proj_eq gBombee _ _ (fun p => by split <;> rfl)
  · exact gBombee_kingStealBig _ _ _
  · exact map_proj_eq gBombee _ _ (fun _ => rfl)

theorem gBombee_executeBombeeEffect (s : GameState) (targetId : String) (bt : BombeeType)
    (o : BombeeOracle) :
    (executeBombeeEffect s targetId bt o).players.map gBombee = s.players.map gBombee := by
  unfold executeBombeeEffect
  split
  · rfl
  · split
    · exact gBombee_miniAction _ _ _
    · exact gBombee_normalAction _ _ _
    · exact gBombee_kingAction _ _ _
    · rfl

/-- Migration keeps at most one carrier when only the current carrier
id may hold the debuff. -/
theorem maybeMove_count (s : GameState) (cid : String) (o : BombeeOracle)
    (hnd : (s.players.map (fun p => p.id)).Nodup)
    (hone : ∀ p ∈ s.players, ¬ p.bombeeType = BombeeType.none → p.id = cid)
    (hcount : bombeeCount s.players ≤ 1) :
    bombeeCount (maybeMoveToLastPlace s cid o).players ≤ 1 := by
  unfold maybeMoveToLastPlace
  dsimp only
  rcases hgl : getLastPlacePlayer (s.players.filter
      (fun p => ¬ p.id = cid ∧ p.bombeeImmuneYears.getD 0 = 0)) with _ | lastPlayer
  · exact hcount
  · dsimp only
    rcases hfd : s.players.find? (fun p => p.id = cid) with _ | cb
    · rw [hfd]
      exact hcount
    · rw [hfd]
      dsimp only
      by_cases hta : cb.totalAssets ≤ lastPlayer.totalAssets
      · rw [if_pos hta]
        exact hcount
      · rw [if_neg hta]
        by_cases hcoin : o.moveCoin = true
        · rw [if_pos hcoin]
          refine bombeeCount_le_one_of_pointwise _ hnd _ lastPlayer.id (fun p hp hq => ?_)
          by_cases h1 : p.id = cid
          · rw [if_pos h1] at hq
            simp at hq
          · rw [if_neg h1] at hq
            by_cases h2 : p.id = lastPlayer.id
            · exact h2
            · rw [if_neg h2] at hq
              exact absurd (hone p hp hq) h1
        · rw [if_neg hcoin]
          exact hcount

/-- C8: each debuff operation (attachment, the full per-turn action with
migration, removal, and both card transfers) keeps the number of debuff
carriers at most one, given pairwise-distinct player ids. -/
theorem atMostOneBombee_preserved (state : GameState) (o : BombeeOracle)
    (fromId toId targetId playerId : String) (card : Card)
    (hnd : playersWF state) (hinv : atMostOneBombee state) :
    atMostOneBombee (attachBombeeToLastPlace state) ∧
    atMostOneBombee (processBombeeAction state o) ∧
    atMostOneBombee (removeBombee state targetId) ∧
    (∀ s2, (useBombeeAway state playerId card).newState = some s2 → atMostOneBombee s2) ∧
    (∀ s2, (useBombeeTransfer state fromId toId).newState = some s2 → atMostOneBombee s2) ∧
    (∀ s2, (useBombeeTransferLastToSecond state).newState = some s2 →
      atMostOneBombee s2) := by
  refine ⟨?_, ?_, ?_, ?_, ?_, ?_⟩
  · -- attachment
    unfold attachBombeeToLastPlace
    by_cases hany : (state.players.any (fun p => ¬ p.bombeeType = BombeeType.none)) = true
    · rw [if_pos hany]
      exact hinv
    · rw [if_neg hany]
      have hnone : ∀ p ∈ state.players, p.bombeeType = BombeeType.none := by
        intro p hp
        by_contra hc
        exact hany (List.any_eq_true.2 ⟨p, hp, by simpa using hc⟩)
      by_cases hlen : state.players.length < 2
      · rw [if_pos hlen]
        exact hinv
      · rw [if_neg hlen]
        rcases hgl : getLastPlacePlayer state.players with _ | lp
        · exact hinv
        · show bombeeCount (state.players.map _) ≤ 1
          refine bombeeCount_le_one_of_pointwise _ hnd _
            ((getLastPlacePlayer (state.players.filter
              (fun p => p.bombeeImmuneYears.getD 0 = 0))).getD lp).id (fun p hp hq => ?_)
          by_cases h1 : p.id = ((getLastPlacePlayer (state.players.filter
              (fun p => p.bombeeImmuneYears.getD 0 = 0))).getD lp).id
          · exact h1
          · rw [if_neg h1] at hq
            exact absurd (hnone p hp) hq
  · -- per-turn action with migration
    unfold processBombeeAction
    rcases hf : state.players.find? (fun p => ¬ p.bombeeType = BombeeType.none) with _ | bp
    · rw [hf]
      exact hinv
    · rw [hf]
      dsimp only
      have hbp : bp ∈ state.players := List.mem_of_find?_eq_some hf
      have hbpb : ¬ bp.bombeeType = BombeeType.none := by
        have := List.find?_some hf
        simpa using this
      have honly := only_carrier hinv hbp hbpb
      have hids1 : (state.players.map (fun p =>
          if p.id = bp.id then
            { p with
              bombeeType := checkEvolution bp.bombeeType (bp.bombeeElapsedTurns + 1),
              bombeeElapsedTurns := bp.bombeeElapsedTurns + 1 }
          else p)).map (fun p => p.id) = state.players.map (fun p => p.id) :=
        map_proj_eq _ _ _ (fun p => by split <;> rfl)
      have hone1 : ∀ q ∈ state.players.map (fun p =>
          if p.id = bp.id then
            { p with
              bombeeType := checkEvolution bp.bombeeType (bp.bombeeElapsedTurns + 1),
              bombeeElapsedTurns := bp.bombeeElapsedTurns + 1 }
          else p), ¬ q.bombeeType = BombeeType.none → q.id = bp.id := by
        intro q hq hqb
        rcases List.mem_map.1 hq with ⟨p, hp, rfl⟩
        by_cases h1 : p.id = bp.id
        · rw [if_pos h1]
          exact h1
        · rw [if_neg h1] at hqb ⊢
          exact absurd (congrArg Player.id (honly p hp hqb)) h1
      have hcount1 : bombeeCount (state.players.map (fun p =>
          if p.id = bp.id then
            { p with
              bombeeType := checkEvolution bp.bombeeType (bp.bombeeElapsedTurns + 1),
              bombeeElapsedTurns := bp.bombeeElapsedTurns + 1 }
          else p)) ≤ 1 := by
        refine bombeeCount_le_one_of_pointwise _ hnd _ bp.id (fun p hp hq => ?_)
        by_cases h1 : p.id = bp.id
        · exact h1
        · rw [if_neg h1] at hq
          exact congrArg Player.id (honly p hp hq)
      have hsim := gBombee_executeBombeeEffect
        { state with players := state.players.map (fun p =>
            if p.id = bp.id then
              { p with
                bombeeType := checkEvolution bp.bombeeType (bp.bombeeElapsedTurns + 1),
                bombeeElapsedTurns := bp.bombeeElapsedTurns + 1 }
            else p) } bp.id
        (checkEvolution bp.bombeeType (bp.bombeeElapsedTurns + 1)) o
      refine maybeMove_count _ _ _ ?_ ?_ ?_
      · rw [ids_eq_of_gBombee _ _ hsim, hids1]
        exact hnd
      · intro q hq hqb
        rcases exists_of_mem_map_proj hsim hq with ⟨p, hp, hgp⟩
        have h1 : p.id = q.id := congrArg Prod.fst hgp
        have h2 : p.bombeeType = q.bombeeType := congrArg Prod.snd hgp
        rw [← h1]
        exact hone1 p hp (h2 ▸ hqb)
      · rw [bombeeCount_eq_of_gBombee _ _ hsim]
        exact hcount1
  · -- removeBombee
    refine le_trans (bombeeCount_le_map _ _ (fun p hq => ?_)) hinv
    by_cases h1 : p.id = targetId
    · rw [if_pos h1] at hq
      simp at hq
    · rw [if_neg h1] at hq
      exact hq
  · -- useBombeeAway
    intro s2 h
    unfold useBombeeAway at h
    rcases hfp : state.players.find? (fun p => p.id = playerId) with _ | player
    · rw [hfp] at h
      dsimp only at h
      rw [Option.some.injEq] at h
      rw [← h]
      exact hinv
    · rw [hfp] at h
      dsimp only at h
      by_cases hbt : player.bombeeType = BombeeType.none
      · rw [if_pos hbt] at h
        rw [Option.some.injEq] at h
        rw [← h]
        exact hinv
      · rw [if_neg hbt] at h
        rw [Option.some.injEq] at h
        rw [← h]
        refine le_trans (bombeeCount_le_map _ _ (fun p hq => ?_)) hinv
        by_cases h1 : p.id = playerId
        · rw [if_pos h1] at hq
          simp at hq
        · rw [if_neg h1] at hq
          exact hq
  · -- useBombeeTransfer
    intro s2 h
    unfold useBombeeTransfer at h
    rcases hfrom : state.players.find? (fun p => p.id = fromId) with _ | fromP
    · rw [hfrom] at h
      simp at h
    rcases hto : state.players.find? (fun p => p.id = toId) with _ | toP
    · rw [hfrom, hto] at h
      simp at h
    rw [hfrom, hto] at h
    dsimp only at h
    by_cases hbt : fromP.bombeeType = BombeeType.none
    · rw [if_pos hbt] at h
      simp at h
    · rw [if_neg hbt] at h
      rw [Option.some.injEq] at h
      rw [← h]
      have hfmem : fromP ∈ state.players := List.mem_of_find?_eq_some hfrom
      have hfid : fromP.id = fromId := by
        have := List.find?_some hfrom
        simpa using this
      have honly := only_carrier hinv hfmem hbt
      refine bombeeCount_le_one_of_pointwise _ hnd _ toId (fun p hp hq => ?_)
      by_cases h1 : p.id = fromId
      · rw [if_pos h1] at hq
        simp at hq
      · rw [if_neg h1] at hq
        by_cases h2 : p.id = toId
        · exact h2
        · rw [if_neg h2] at hq
          have := congrArg Player.id (honly p hp hq)
          rw [hfid] at this
          exact absurd this h1
  · -- useBombeeTransferLastToSecond
    intro s2 h
    unfold useBombeeTransferLastToSecond at h
    dsimp only at h
    split at h
    · simp at h
    · rename_i hlen2
      split at h
      · simp at h
      · rename_i hbt
        rw [Option.some.injEq] at h
        rw [← h]
        have hperm : (state.players.insertionSort
            (fun a b => a.totalAssets ≤ b.totalAssets)).Perm state.players :=
          List.perm_insertionSort _ _
        have hlastmem : (state.players.insertionSort
            (fun a b => a.totalAssets ≤ b.totalAssets)).get ⟨0, by omega⟩ ∈
            state.players := by
          exact hperm.mem_iff.1 (List.get_mem _ _ _)
        have honly := only_carrier hinv hlastmem hbt
        refine bombeeCount_le_one_of_pointwise _ hnd _
          ((state.players.insertionSort
            (fun a b => a.totalAssets ≤ b.totalAssets)).get ⟨1, by omega⟩).id
          (fun p hp hq => ?_)
        by_cases h1 : p.id = ((state.players.insertionSort
            (fun a b => a.totalAssets ≤ b.totalAssets)).get ⟨0, by omega⟩).id
        · rw [if_pos h1] at hq
          simp at hq
        · rw [if_neg h1] at hq
          by_cases h2 : p.id = ((state.players.insertionSort
              (fun a b => a.totalAssets ≤ b.totalAssets)).get ⟨1, by omega⟩).id
          · exact h2
          · rw [if_neg h2] at hq
            exact absurd (congrArg Player.id (honly p hp hq)) h1

/-- Two players, a carrying mini: a concrete well-formed state. -/
def exBombeeState : GameState :=
  ⟨[exPlayer "a" 5000 [] BombeeType.mini, exPlayer "b" 10000 [] BombeeType.none],
   [], "osaka"⟩

def exOracle : BombeeOracle := ⟨false, 0, KingChoice.steal_big, true, 100, 100, 100⟩

/-- C8 witness: the invariant survives an attach on a clean state and a
full debuff turn (evolution, effect, migration coin true) on a state
with one mini carrier. -/
theorem atMostOneBombee_preserved_witness :
    atMostOneBombee (attachBombeeToLastPlace exAttachState) ∧
    atMostOneBombee (processBombeeAction exBombeeState exOracle) := by
  constructor
  · exact (atMostOneBombee_preserved exAttachState exOracle "a" "b" "a" "a"
      ⟨"c1", CardType.bombee_away, ⟨some 1, none⟩⟩ (by unfold playersWF; decide)
      (by unfold atMostOneBombee bombeeCount; decide)).1
  · exact (atMostOneBombee_preserved exBombeeState exOracle "a" "b" "a" "a"
      ⟨"c1", CardType.bombee_away, ⟨some 1, none⟩⟩ (by unfold playersWF; decide)
      (by unfold atMostOneBombee bombeeCount; decide)).2.1

/-! ## Claim C1: the totalAssets invariant -/

theorem gDelta_sub (p : Player) (a : Int) :
    gDelta { p with money := p.money - a, totalAssets := p.totalAssets - a } = gDelta p := by
  have h : p.totalAssets - a - (p.money - a) = p.totalAssets - p.money := by ring
  simp [gDelta, h]

theorem gDelta_add (p : Player) (a : Int) :
    gDelta { p with money := p.money + a, totalAssets := p.totalAssets + a } = gDelta p := by
  have h : p.totalAssets + a - (p.money + a) = p.totalAssets - p.money := by ring
  simp [gDelta, h]

theorem propertyValue_cons (a : Property) (t : List Property) (pid : String) :
    propertyValue (a :: t) pid =
      (if a.ownerId = some pid then a.price else 0) + propertyValue t pid := by
  unfold propertyValue
  by_cases h : a.ownerId = some pid <;> simp [List.filter_cons, h]

/-- Returning one property to the market lowers its owner's property
value by exactly its price and nobody else's at all. -/
theorem propertyValue_clear_owner :
    ∀ (props : List Property), (props.map (fun p => p.id)).Nodup →
      ∀ (x : Property), x ∈ props → ∀ (tid : String), x.ownerId = some tid →
      (∀ pid, ¬ pid = tid →
        propertyValue (props.map (fun p =>
          if p.id = x.id then { p with ownerId := none } else p)) pid =
          propertyValue props pid) ∧
      propertyValue (props.map (fun p =>
        if p.id = x.id then { p with ownerId := none } else p)) tid + x.price =
        propertyValue props tid := by
  intro props
  induction props with
  | nil =>
    intro _ x hx
    exact absurd hx (List.not_mem_nil x)
  | cons a t ih =>
    intro hnd x hx tid hown
    have hnda : a.id ∉ t.map (fun p => p.id) := (List.nodup_cons.1 hnd).1
    have hndt := (List.nodup_cons.1 hnd).2
    by_cases hax : a.id = x.id
    · have hxa : x = a := by
        rcases List.mem_cons.1 hx with h | h
        · exact h
        · exact absurd (hax ▸ List.mem_map_of_mem (fun p => p.id) h) hnda
      have htmap : t.map (fun p =>
          if p.id = x.id then { p with ownerId := none } else p) = t := by
        have hne : ∀ p ∈ t, (if p.id = x.id then { p with ownerId := none } else p) = p := by
          intro p hp
          have hpx : ¬ p.id = x.id := by
            intro hpx
            apply hnda
            rw [hax, ← hpx]
            exact List.mem_map_of_mem (fun p => p.id) hp
          rw [if_neg hpx]
        rw [map_congr_mem hne]
        simp
      rw [List.map_cons, if_pos hax, htmap]
      subst hxa
      constructor
      · intro pid hpid
        rw [propertyValue_cons, propertyValue_cons]
        have hne2 : ¬ x.ownerId = some pid := by
          rw [hown]
          intro hc
          exact hpid (Option.some.inj hc).symm
        simp [hne2]
      · rw [propertyValue_cons, propertyValue_cons, hown]
        simp
        omega
    · have hxt : x ∈ t := by
        rcases List.mem_cons.1 hx with h | h
        · exact absurd (congrArg Property.id h.symm) hax
        · exact h
      rcases ih hndt x hxt tid hown with ⟨ih1, ih2⟩
      rw [List.map_cons, if_neg hax]
      constructor
      · intro pid hpid
        rw [propertyValue_cons, propertyValue_cons, ih1 pid hpid]
      · rw [propertyValue_cons, propertyValue_cons]
        omega

/-- A players-only rewrite with unchanged per-player wealth delta
preserves the invariant. -/
theorem inv_delta_map (s : GameState) (f : Player → Player)
    (h : ∀ p, gDelta (f p) = gDelta p) (hinv : assetsInvariant s) :
    assetsInvariant { s with players := s.players.map f } :=
  assetsInvariant_of_proj (map_proj_eq gDelta f s.players h) hinv

theorem inv_miniAction (s : GameState) (t : Player) (amt : Int)
    (hinv : assetsInvariant s) : assetsInvariant (miniAction s t amt) := by
  unfold miniAction
  dsimp only
  split
  · exact hinv
  · refine inv_delta_map s _ (fun p => ?_) hinv
    split
    · exact gDelta_sub _ _
    · rfl

theorem inv_kingStealBig (s : GameState) (t : Player) (amt : Int)
    (hinv : assetsInvariant s) : assetsInvariant (kingStealBig s t amt) := by
  unfold kingStealBig
  dsimp only
  split
  · exact hinv
  · refine inv_delta_map s _ (fun p => ?_) hinv
    split
    · exact gDelta_sub _ _
    · rfl

theorem inv_normalAction (s : GameState) (t : Player) (o : BombeeOracle)
    (hndp : (s.properties.map (fun p => p.id)).Nodup)
    (hinv : assetsInvariant s) : assetsInvariant (normalAction s t o) := by
  unfold normalAction
  dsimp only
  split
  · rcases hget : (s.properties.filter (fun p => p.ownerId = some t.id)).get?
        (o.pickIdx % (s.properties.filter (fun p => p.ownerId = some t.id)).length)
        with _ | prop
    · exact hinv
    · dsimp only
      have hpropmem : prop ∈ s.properties.filter (fun p => p.ownerId = some t.id) :=
        List.get?_mem hget
      have hmem : prop ∈ s.properties := (List.mem_filter.1 hpropmem).1
      have hown : prop.ownerId = some t.id := by
        have := (List.mem_filter.1 hpropmem).2
        simpa using this
      rcases propertyValue_clear_owner s.properties hndp prop hmem t.id hown with ⟨hpv1, hpv2⟩
      intro q hq
      dsimp only at hq ⊢
      rcases List.mem_map.1 hq with ⟨p, hp, rfl⟩
      have hinvp := hinv p hp
      by_cases hid : p.id = t.id
      · rw [if_pos hid]
        dsimp only
        rw [hid] at hinvp ⊢
        omega
      · rw [if_neg hid]
        rw [hpv1 p.id hid]
        exact hinvp
  · split
    · exact hinv
    · refine inv_delta_map s _ (fun p => ?_) hinv
      split
      · exact gDelta_sub _ _
      · rfl

theorem inv_kingAction (s : GameState) (t : Player) (o : BombeeOracle)
    (hking : ¬ o.kingChoice = KingChoice.sell_all)
    (hinv : assetsInvariant s) : assetsInvariant (kingAction s t o) := by
  unfold kingAction
  rcases hch : o.kingChoice
  · exact absurd hch hking
  · exact inv_kingStealBig s t o.kingFloor hinv
  · exact inv_delta_map s _ (fun p => gDelta_sub _ _) hinv

theorem inv_executeBombeeEffect (s : GameState) (targetId : String) (bt : BombeeType)
    (o : BombeeOracle)
    (hndp : (s.properties.map (fun p => p.id)).Nodup)
    (hking : ¬ o.kingChoice = KingChoice.sell_all)
    (hinv : assetsInvariant s) :
    assetsInvariant (executeBombeeEffect s targetId bt o) := by
  unfold executeBombeeEffect
  split
  · exact hinv
  · split
    · exact inv_miniAction _ _ _ hinv
    · exact inv_normalAction _ _ _ hndp hinv
    · exact inv_kingAction _ _ _ hking hinv
    · exact hinv

theorem inv_maybeMove (s : GameState) (cid : String) (o : BombeeOracle)
    (hinv : assetsInvariant s) :
    assetsInvariant (maybeMoveToLastPlace s cid o) := by
  unfold maybeMoveToLastPlace
  dsimp only
  rcases hgl : getLastPlacePlayer (s.players.filter
      (fun p => ¬ p.id = cid ∧ p.bombeeImmuneYears.getD 0 = 0)) with _ | lastPlayer
  · exact hinv
  · dsimp only
    rcases hfd : s.players.find? (fun p => p.id = cid) with _ | cb
    · rw [hfd]
      exact hinv
    · rw [hfd]
      dsimp only
      split
      · exact hinv
      · split
        · refine inv_delta_map s _ (fun p => ?_) hinv
          split
          · rfl
          · split <;> rfl
        · exact hinv

theorem inv_processBombeeAction (s : GameState) (o : BombeeOracle)
    (hndp : (s.properties.map (fun p => p.id)).Nodup)
    (hking : ¬ o.kingChoice = KingChoice.sell_all)
    (hinv : assetsInvariant s) :
    assetsInvariant (processBombeeAction s o) := by
  unfold processBombeeAction
  rcases hf : s.players.find? (fun p => ¬ p.bombeeType = BombeeType.none) with _ | bp
  · rw [hf]
    exact hinv
  · rw [hf]
    dsimp only
    refine inv_maybeMove _ _ _ (inv_executeBombeeEffect _ _ _ _ hndp hking ?_)
    exact inv_delta_map s _ (fun p => by split <;> rfl) hinv

theorem inv_attachBombee (s : GameState) (hinv : assetsInvariant s) :
    assetsInvariant (attachBombeeToLastPlace s) := by
  unfold attachBombeeToLastPlace
  split
  · exact hinv
  · split
    · exact hinv
    · rcases getLastPlacePlayer s.players with _ | lp
      · exact hinv
      · dsimp only
        exact inv_delta_map s _ (fun p => by split <;> rfl) hinv

theorem inv_removeBombee (s : GameState) (targetId : String) (hinv : assetsInvariant s) :
    assetsInvariant (removeBombee s targetId) := by
  exact inv_delta_map s _ (fun p => by split <;> rfl) hinv

/-- The invariant transfers along equal properties and equal
(id, totalAssets - money) projections. -/
theorem inv_of_sim (s s2 : GameState)
    (hprops : s2.properties = s.properties)
    (hsim : s2.players.map gDelta = s.players.map gDelta)
    (hinv : assetsInvariant s) : assetsInvariant s2 := by
  intro q hq
  rcases exists_of_mem_map_proj hsim hq with ⟨p, hp, hgp⟩
  have h1 : p.id = q.id := congrArg Prod.fst hgp
  have h2 := congrArg Prod.snd hgp
  have h3 := hinv p hp
  rw [hprops, ← h1]
  simp only [gDelta] at h2
  omega

theorem gdelta_moveToDest (s : GameState) (playerId : String) (card : Card) (s2 : GameState)
    (h : (useMoveToDest s playerId card).newState = some s2) :
    s2.players.map gDelta = s.players.map gDelta ∧ s2.properties = s.properties := by
  unfold useMoveToDest at h
  dsimp only at h
  split at h <;>
  · rw [Option.some.injEq] at h
    subst h
    exact ⟨map_proj_eq gDelta _ _ (fun p => by split <;> rfl), rfl⟩

theorem gdelta_getMoneyFold (v : Int) (opps : List Player) :
    ∀ init : Int × List Player,
      ((opps.foldl (getMoneyEachStep v) init).2).map gDelta = init.2.map gDelta := by
  induction opps with
  | nil => intro init; rfl
  | cons o rest ih =>
    intro init
    rw [List.foldl_cons, ih]
    refine map_proj_eq gDelta _ _ (fun p => ?_)
    split
    · exact gDelta_sub _ _
    · rfl

theorem gDelta_ite_add (playerId : String) (a : Int) (p : Player) :
    gDelta (if p.id = playerId then
      { p with money := p.money + a, totalAssets := p.totalAssets + a } else p) = gDelta p := by
  split
  · exact gDelta_add _ _
  · rfl

theorem gDelta_ite_sub (playerId : String) (a : Int) (p : Player) :
    gDelta (if p.id = playerId then
      { p with money := p.money - a, totalAssets := p.totalAssets - a } else p) = gDelta p := by
  split
  · exact gDelta_sub _ _
  · rfl

theorem gdelta_getMoney (s : GameState) (playerId : String) (card : Card) (s2 : GameState)
    (h : (useGetMoney s playerId card).newState = some s2) :
    s2.players.map gDelta = s.players.map gDelta ∧ s2.properties = s.properties := by
  unfold useGetMoney at h
  dsimp only at h
  split at h
  · rw [Option.some.injEq] at h
    subst h
    exact ⟨map_proj_eq gDelta _ _ (gDelta_ite_add playerId _), rfl⟩
  split at h
  · rw [Option.some.injEq] at h
    subst h
    refine ⟨?_, rfl⟩
    rw [map_proj_eq gDelta _ _ (gDelta_ite_add playerId _)]
    exact gdelta_getMoneyFold _ _ _
  · rw [Option.some.injEq] at h
    subst h
    exact ⟨map_proj_eq gDelta _ _ (gDelta_ite_add playerId _), rfl⟩

theorem gdelta_payLoop (v : Int) :
    ∀ (opps : List Player) (tp rem : Int) (acc : List Player),
      ((payMoneyEachLoop v opps tp rem acc).2).map gDelta = acc.map gDelta := by
  intro opps
  induction opps with
  | nil => intro tp rem acc; rfl
  | cons o rest ih =>
    intro tp rem acc
    rw [payMoneyEachLoop]
    split
    · rfl
    · rw [ih]
      refine map_proj_eq gDelta _ _ (fun p => ?_)
      split
      · exact gDelta_add _ _
      · rfl

theorem gdelta_payMoney (s : GameState) (playerId : String) (card : Card) (s2 : GameState)
    (h : (usePayMoney s playerId card).newState = some s2) :
    s2.players.map gDelta = s.players.map gDelta ∧ s2.properties = s.properties := by
  unfold usePayMoney at h
  split at h
  · simp at h
  dsimp only at h
  split at h
  · rw [Option.some.injEq] at h
    subst h
    exact ⟨map_proj_eq gDelta _ _ (gDelta_ite_sub playerId _), rfl⟩
  split at h
  · rw [Option.some.injEq] at h
    subst h
    exact ⟨map_proj_eq gDelta _ _ (gDelta_ite_sub playerId _), rfl⟩
  split at h
  · rw [Option.some.injEq] at h
    subst h
    refine ⟨?_, rfl⟩
    rw [map_proj_eq gDelta _ _ (gDelta_ite_sub playerId _)]
    exact gdelta_payLoop _ _ _ _ _
  · rw [Option.some.injEq] at h
    subst h
    exact ⟨map_proj_eq gDelta _ _ (gDelta_ite_sub playerId _), rfl⟩

theorem gdelta_bombeeTransfer (s : GameState) (fromId toId : String) (s2 : GameState)
    (h : (useBombeeTransfer s fromId toId).newState = some s2) :
    s2.players.map gDelta = s.players.map gDelta ∧ s2.properties = s.properties := by
  unfold useBombeeTransfer at h
  split at h
  · split at h
    · simp at h
    · rw [Option.some.injEq] at h
      subst h
      exact ⟨map_proj_eq gDelta _ _ (fun p => by split <;> (try split) <;> rfl), rfl⟩
  · simp at h

theorem gdelta_bombeeTransferL2S (s : GameState) (s2 : GameState)
    (h : (useBombeeTransferLastToSecond s).newState = some s2) :
    s2.players.map gDelta = s.players.map gDelta ∧ s2.properties = s.properties := by
  unfold useBombeeTransferLastToSecond at h
  dsimp only at h
  split at h
  · simp at h
  · split at h
    · simp at h
    · rw [Option.some.injEq] at h
      subst h
      exact ⟨map_proj_eq gDelta _ _ (fun p => by split <;> (try split) <;> rfl), rfl⟩

theorem gdelta_cardSteal (s : GameState) (stealerId targetId : String)
    (targetCardId : Option String) (pickIdx : Nat) (s2 : GameState)
    (h : (useCardSteal s stealerId targetId targetCardId pickIdx).newState = some s2) :
    s2.players.map gDelta = s.players.map gDelta ∧ s2.properties = s.properties := by
  unfold useCardSteal at h
  dsimp only at h
  split at h
  · simp at h
  · split at h
    · simp at h
    · split at h
      · simp at h
      · rw [Option.some.injEq] at h
        subst h
        exact ⟨map_proj_eq gDelta _ _ (fun p => by split <;> (try split) <;> rfl), rfl⟩

theorem gdelta_moveToCity (s : GameState) (playerId : String) (card : Card) (s2 : GameState)
    (h : (useMoveToCity s playerId card).newState = some s2) :
    s2.players.map gDelta = s.players.map gDelta ∧ s2.properties = s.properties := by
  unfold useMoveToCity at h
  rw [Option.some.injEq] at h
  subst h
  exact ⟨map_proj_eq gDelta _ _ (fun p => by split <;> rfl), rfl⟩

theorem gdelta_bombeeAway (s : GameState) (playerId : String) (card : Card) (s2 : GameState)
    (h : (useBombeeAway s playerId card).newState = some s2) :
    s2.players.map gDelta = s.players.map gDelta ∧ s2.properties = s.properties := by
  unfold useBombeeAway at h
  split at h
  · rw [Option.some.injEq] at h
    subst h
    exact ⟨rfl, rfl⟩
  · split at h
    · rw [Option.some.injEq] at h
      subst h
      exact ⟨rfl, rfl⟩
    · rw [Option.some.injEq] at h
      subst h
      exact ⟨map_proj_eq gDelta _ _ (fun p => by split <;> rfl), rfl⟩

theorem gdelta_doubleIncome (s : GameState) (playerId : String) (card : Card) (s2 : GameState)
    (h : (useDoubleIncome s playerId card).newState = some s2) :
    s2.players.map gDelta = s.players.map gDelta ∧ s2.properties = s.properties := by
  unfold useDoubleIncome at h
  dsimp only at h
  split at h <;>
  · rw [Option.some.injEq] at h
    subst h
    refine ⟨map_proj_eq gDelta _ _ (fun p => ?_), rfl⟩
    split
    · first
      | exact gDelta_add _ _
      | rfl
    · rfl

theorem inv_sellPropertyCard (s : GameState) (playerId : String) (card : Card)
    (tPropId tPlayId tCityId : Option String) (s2 : GameState)
    (h : (useSellProperty s playerId card tPropId tPlayId tCityId).newState = some s2) :
    assetsInvariant s2 := by
  unfold useSellProperty at h
  dsimp only at h
  split at h
  · split at h
    · simp at h
    · rw [Option.some.injEq] at h
      subst h
      exact assetsInvariant_recalc _
  · split at h
    · split at h
      · simp at h
      · rw [Option.some.injEq] at h
        subst h
        exact assetsInvariant_recalc _
    · split at h
      · simp at h
      · rw [Option.some.injEq] at h
        subst h
        exact assetsInvariant_recalc _

theorem inv_stealPropertyCard (s : GameState) (playerId : String) (card : Card)
    (tCityId : Option String) (s2 : GameState)
    (h : (useStealProperty s playerId card tCityId).newState = some s2) :
    assetsInvariant s2 := by
  unfold useStealProperty at h
  dsimp only at h
  split at h
  · split at h
    · simp at h
    · rw [Option.some.injEq] at h
      subst h
      exact assetsInvariant_recalc _
  · split at h
    · simp at h
    · split at h
      · simp at h
      · rw [Option.some.injEq] at h
        subst h
        exact assetsInvariant_recalc _

theorem inv_monopolyBreakCard (s : GameState) (playerId : String) (card : Card)
    (s2 : GameState)
    (h : (useMonopolyBreak s playerId card).newState = some s2) :
    assetsInvariant s2 := by
  unfold useMonopolyBreak at h
  dsimp only at h
  split at h
  · split at h
    · simp at h
    · rw [Option.some.injEq] at h
      subst h
      exact assetsInvariant_recalc _
  · split at h
    · rw [Option.some.injEq] at h
      subst h
      exact assetsInvariant_recalc _
    · simp at h

theorem inv_buyPropertyCard (s : GameState) (playerId : String) (card : Card)
    (tCityId : Option String) (s2 : GameState)
    (h : (useBuyProperty s playerId card tCityId).newState = some s2) :
    assetsInvariant s2 := by
  unfold useBuyProperty at h
  split at h
  · simp at h
  dsimp only at h
  split at h
  · split at h
    · simp at h
    · rw [Option.some.injEq] at h
      subst h
      exact assetsInvariant_recalc _
  · split at h
    · split at h
      · simp at h
      · rw [Option.some.injEq] at h
        subst h
        exact assetsInvariant_recalc _
    · split at h
      · split at h
        · simp at h
        · split at h
          · simp at h
          · rw [Option.some.injEq] at h
            subst h
            exact assetsInvariant_recalc _
      · simp at h

theorem inv_useCard (allCards : List Card) (state : GameState)
    (playerId cardId : String) (options : UseCardOptions) (pickIdx : Nat)
    (hinv : assetsInvariant state) :
    ∀ s2, (useCard allCards state playerId cardId options pickIdx).newState = some s2 →
      assetsInvariant s2 := by
  intro s2 h
  rcases hp : state.players.find? (fun p => p.id = playerId) with _ | player
  · rcases hc : getCardById allCards cardId with _ | card <;>
      simp only [useCard, hp, hc] at h <;> simp at h
  rcases hc : getCardById allCards cardId with _ | card
  · simp only [useCard, hp, hc] at h
    simp at h
  by_cases hmem : cardId ∈ player.hand
  swap
  · simp only [useCard, hp, hc] at h
    rw [if_pos (by simp [hmem])] at h
    simp at h
  simp only [useCard, hp, hc] at h
  rw [if_neg (by simp [hmem])] at h
  have hsar : assetsInvariant (removeFromHand state playerId cardId) := by
    refine inv_delta_map state _ (fun p => ?_) hinv
    split <;> rfl
  split at h
  · rcases gdelta_moveToDest _ _ _ _ h with ⟨h1, h2⟩
    exact inv_of_sim _ _ h2 h1 hsar
  · rcases gdelta_getMoney _ _ _ _ h with ⟨h1, h2⟩
    exact inv_of_sim _ _ h2 h1 hsar
  · rcases gdelta_payMoney _ _ _ _ h with ⟨h1, h2⟩
    exact inv_of_sim _ _ h2 h1 hsar
  · split at h
    · rcases gdelta_bombeeTransferL2S _ _ h with ⟨h1, h2⟩
      exact inv_of_sim _ _ h2 h1 hsar
    · split at h
      · simp at h
      · rcases gdelta_bombeeTransfer _ _ _ _ h with ⟨h1, h2⟩
        exact inv_of_sim _ _ h2 h1 hsar
  · split at h
    · simp at h
    · rcases gdelta_cardSteal _ _ _ _ _ _ h with ⟨h1, h2⟩
      exact inv_of_sim _ _ h2 h1 hsar
  · rcases gdelta_moveToCity _ _ _ _ h with ⟨h1, h2⟩
    exact inv_of_sim _ _ h2 h1 hsar
  · rcases gdelta_bombeeAway _ _ _ _ h with ⟨h1, h2⟩
    exact inv_of_sim _ _ h2 h1 hsar
  · exact inv_sellPropertyCard _ _ _ _ _ _ _ h
  · exact inv_stealPropertyCard _ _ _ _ _ h
  · exact inv_monopolyBreakCard _ _ _ _ h
  · exact inv_buyPropertyCard _ _ _ _ _ h
  · rcases gdelta_doubleIncome _ _ _ _ h with ⟨h1, h2⟩
    exact inv_of_sim _ _ h2 h1 hsar
  · rw [Option.some.injEq] at h
    rw [← h]
    exact hsar
  · rw [Option.some.injEq] at h
    rw [← h]
    exact hsar

/-- A king-tier carrier owning one 1000-price property, satisfying the
wealth invariant (2000 = 1000 + 1000), next to a clean rich player. -/
def exC1State : GameState :=
  ⟨[⟨"a", 1000, 2000, exPos, [], BombeeType.king, 0, none, none, none⟩,
    exPlayer "b" 10000 [] BombeeType.none],
   [exProp "h1" "tokyo" 1000 200 (some "a") 0], "osaka"⟩

/-- An oracle making the king-tier action take the sell-all branch. -/
def exC1Oracle : BombeeOracle := ⟨false, 0, KingChoice.sell_all, true, 100, 100, 100⟩

/-- C1 (amended): after every state-mutating operation of the engine —
property purchase, upgrade, land-fee payment, forced sale, every card
effect through useCard, and the debuff operations (attach, per-turn
action, removal) — each player's totalAssets equals their money plus the
summed prices of the properties they own, provided property ids are
pairwise distinct and the per-turn debuff action does not take the
king-tier sell-all branch (which patches totalAssets incrementally with
a doubled loss instead of recomputing it, breaking the invariant). -/
theorem assetsInvariant_preserved (s : GameState) (o : BombeeOracle)
    (allCards : List Card) (playerId cardId propertyId targetId : String)
    (options : UseCardOptions) (pickIdx : Nat)
    (hinv : assetsInvariant s)
    (hndp : (s.properties.map (fun p => p.id)).Nodup)
    (hking : ¬ o.kingChoice = KingChoice.sell_all) :
    (∀ s2, (buyProperty s playerId propertyId).newState = some s2 → assetsInvariant s2) ∧
    (∀ s2, (upgradeProperty s playerId propertyId).newState = some s2 → assetsInvariant s2) ∧
    assetsInvariant (payLandFee s playerId propertyId) ∧
    assetsInvariant (sellPropertyForcibly s playerId propertyId) ∧
    (∀ s2, (useCard allCards s playerId cardId options pickIdx).newState = some s2 →
      assetsInvariant s2) ∧
    assetsInvariant (attachBombeeToLastPlace s) ∧
    assetsInvariant (removeBombee s targetId) ∧
    assetsInvariant (processBombeeAction s o) := by
  refine ⟨?_, ?_, ?_, ?_, inv_useCard allCards s playerId cardId options pickIdx hinv,
    inv_attachBombee s hinv, inv_removeBombee s targetId hinv,
    inv_processBombeeAction s o hndp hking hinv⟩
  · intro s2 h
    unfold buyProperty at h
    split at h
    · split at h
      · simp at h
      · dsimp only at h
        split at h
        · simp at h
        · rw [Option.some.injEq] at h
          subst h
          exact assetsInvariant_recalc _
    all_goals simp at h
  · intro s2 h
    unfold upgradeProperty at h
    split at h
    · split at h
      · simp at h
      · split at h
        · simp at h
        · dsimp only at h
          split at h
          · simp at h
          · rw [Option.some.injEq] at h
            subst h
            exact assetsInvariant_recalc _
    all_goals simp at h
  · unfold payLandFee
    split
    · split
      · exact hinv
      · split
        · exact hinv
        · exact assetsInvariant_recalc _
    all_goals exact hinv
  · unfold sellPropertyForcibly
    split
    · split
      · exact hinv
      · exact assetsInvariant_recalc _
    all_goals exact hinv

/-- C1 witness: from a state satisfying the invariant, with distinct
property ids and a non-sell-all oracle, the invariant survives a
land-fee payment and a full debuff turn. -/
theorem assetsInvariant_preserved_witness :
    assetsInvariant (payLandFee exBombeeState "a" "h1") ∧
    assetsInvariant (processBombeeAction exBombeeState exOracle) := by
  have h := assetsInvariant_preserved exBombeeState exOracle exCatalog "a" "c1" "h1" "b"
    ⟨none, none, none, none⟩ 0 (by unfold assetsInvariant; decide) (by decide) (by decide)
  exact ⟨h.2.2.1, h.2.2.2.2.2.2.2⟩

/-- C1 counterexample: the king-tier sell-all action breaks the
invariant.  In exC1State the carrier has money 1000, totalAssets 2000
and one 1000-price property; the sell-all branch leaves money 700,
totalAssets 1400 and no property, so 1400 is not 700 + 0. -/
theorem assetsInvariant_king_counterexample :
    assetsInvariant exC1State ∧
    ¬ assetsInvariant (processBombeeAction exC1State exC1Oracle) := by
  constructor
  · unfold assetsInvariant
    decide
  · unfold assetsInvariant
    decide

end Sugoroku
